import Mathlib

/-!
Verification of the phototimeshift timestamp reconciliation and correction
engine, modelled as a shallow embedding of the Python source
(`main.py`, `mpl_extract.py`).

Conventions used throughout:
* Date-times are modelled the way CPython stores them: integer microsecond
  wall-clock values.  An offset-aware date-time is a pair of a wall clock
  (microseconds) and a UTC offset (microseconds); its instant is
  `wall - off`.
* Rational numbers stand in for the exact real values that the Python code
  manipulates through floats (interpolation ratios, hour differences).
* Fallible Python code (exceptions) is modelled with `Option` / `Except`.
-/

/-- One offset-aware datetime value: wall-clock microseconds together with a
UTC offset in microseconds (`datetime` with `tzinfo`). -/
structure Aware where
  wall : ℤ
  off : ℤ
deriving Repr, DecidableEq

/-- UTC instant represented by an aware datetime, in microseconds. -/
def Aware.instant (a : Aware) : ℤ := a.wall - a.off

/- ## MplCodec packed-decimal fields (`mpl_extract.py`)

`MplFile.read` decodes a field by rendering the raw integer in hexadecimal
and reparsing the digit string as decimal:  `int("{:x}".format(raw))`.
`MplFile.write` encodes by the inverse: `int(f"{v}", 16)`. -/

/-- Packed-decimal encode, from `MplFile.write`: render the decimal digits of
`v` and reinterpret that digit string in base 16 (`int(f"{v}", 16)`). -/
def packedEncode (v : ℕ) : ℕ := Nat.ofDigits 16 (Nat.digits 10 v)

/-- Packed-decimal decode, from `MplFile.read`: render `raw` in hexadecimal
and reparse the digit string as decimal (`int("{:x}".format(raw))`); a hex
digit beyond '9' makes `int` raise, modelled as `none`. -/
def packedDecode (raw : ℕ) : Option ℕ :=
  if (Nat.digits 16 raw).all (fun d => d < 10) then
    some (Nat.ofDigits 10 (Nat.digits 16 raw))
  else none

lemma digits10_lt_16 {v : ℕ} {d : ℕ} (hd : d ∈ Nat.digits 10 v) : d < 16 :=
  lt_trans (Nat.digits_lt_base (by norm_num) hd) (by norm_num)

lemma packedEncode_digits (v : ℕ) :
    Nat.digits 16 (packedEncode v) = Nat.digits 10 v := by
  unfold packedEncode
  refine Nat.digits_ofDigits 16 (by norm_num) _ (fun d hd => digits10_lt_16 hd) ?_
  intro h
  exact Nat.getLast_digit_ne_zero 10 (Nat.digits_ne_nil_iff_ne_zero.mp h)

lemma packedDecode_packedEncode (v : ℕ) :
    packedDecode (packedEncode v) = some v := by
  unfold packedDecode
  rw [packedEncode_digits]
  rw [if_pos]
  · rw [Nat.ofDigits_digits]
  · rw [List.all_eq_true]
    intro d hd
    simpa using Nat.digits_lt_base (by norm_num) (by simpa using hd)

lemma digits10_len_le {v n : ℕ} (hv : v < 10 ^ n) :
    (Nat.digits 10 v).length ≤ n := by
  rcases Nat.eq_zero_or_pos v with rfl | hv0
  · simp
  · have h1 : 10 ^ (Nat.digits 10 v).length ≤ 10 * v :=
      Nat.base_pow_length_digits_le 10 v (by norm_num) hv0.ne'
    have h2 : 10 * v < 10 ^ (n + 1) := by
      rw [pow_succ, mul_comm]
      exact Nat.mul_lt_mul_of_lt_of_le hv (le_refl 10) (by norm_num)
    have h3 : 10 ^ (Nat.digits 10 v).length < 10 ^ (n + 1) := lt_of_le_of_lt h1 h2
    have := (Nat.pow_lt_pow_iff_right (by norm_num : 1 < 10)).mp h3
    omega

lemma packedEncode_lt_pow {v n : ℕ} (hv : v < 10 ^ n) :
    packedEncode v < 16 ^ n := by
  have h1 : packedEncode v < 16 ^ (Nat.digits 10 v).length :=
    Nat.ofDigits_lt_base_pow_length (by norm_num) (fun d hd => digits10_lt_16 hd)
  exact lt_of_lt_of_le h1 (Nat.pow_le_pow_right (by norm_num) (digits10_len_le hv))

/-- C2: packed-decimal round-trip and rejection.  For every value in a
field's valid decimal range, decode ∘ encode is the identity and the encoded
value fits the field width (2 bytes for the year, 1 byte for the other
fields); any raw value whose hexadecimal rendering contains a digit beyond
'9' is rejected by decode. -/
theorem c2_packed_decimal_roundtrip :
    (∀ v : ℕ, v ≤ 9999 → packedDecode (packedEncode v) = some v ∧ packedEncode v < 65536)
    ∧ (∀ v : ℕ, v ≤ 99 → packedDecode (packedEncode v) = some v ∧ packedEncode v < 256)
    ∧ (∀ raw : ℕ, (∃ d ∈ Nat.digits 16 raw, 10 ≤ d) → packedDecode raw = none) := by
  refine ⟨?_, ?_, ?_⟩
  · intro v hv
    refine ⟨packedDecode_packedEncode v, ?_⟩
    have : packedEncode v < 16 ^ 4 := packedEncode_lt_pow (by omega)
    omega
  · intro v hv
    refine ⟨packedDecode_packedEncode v, ?_⟩
    have : packedEncode v < 16 ^ 2 := packedEncode_lt_pow (by omega)
    omega
  · intro raw hraw
    unfold packedDecode
    rw [if_neg]
    rw [List.all_eq_true]
    push_neg
    obtain ⟨d, hd, h10⟩ := hraw
    exact ⟨d, hd, by simpa using h10⟩

lemma digits16_26 : Nat.digits 16 26 = [10, 1] := by
  rw [Nat.digits_def' (by norm_num : (1:ℕ) < 16) (by norm_num : 0 < 26)]
  norm_num

/-- Witness for C2 at concrete inputs: the year value 2021 round-trips (raw
bytes 0x2021), and the raw value 0x1A (hex digits "1a") is rejected. -/
theorem c2_witness :
    (2021 : ℕ) ≤ 9999 ∧ packedDecode (packedEncode 2021) = some 2021
    ∧ (∃ d ∈ Nat.digits 16 26, 10 ≤ d) ∧ packedDecode 26 = none := by
  have h1 := (c2_packed_decimal_roundtrip.1 2021 (by norm_num)).1
  have hd : (10 : ℕ) ∈ Nat.digits 16 26 := by rw [digits16_26]; simp
  have h2 := c2_packed_decimal_roundtrip.2.2 26 ⟨10, hd, le_refl 10⟩
  exact ⟨by norm_num, h1, ⟨10, hd, le_refl 10⟩, h2⟩

/- ## DeltaInterpolator (`Application.update_timestamp_delta_state.get_delta`)

The anchor set `locked_timestamp_deltas` is a `SortedDict` mapping canonical
timestamps to correction deltas, kept ordered ascending with unique keys; it
is modelled as a list of (timestamp, delta) pairs that is strictly sorted by
first component.  Timestamps and deltas are modelled as exact rationals (the
Python code computes the interpolation ratio in floating point). -/

/-- Leftmost insertion point of `ts` in a key-sorted anchor list
(`SortedDict.bisect_left`): the number of leading keys strictly below `ts`. -/
def bisectLeft (ts : ℚ) : List (ℚ × ℚ) → ℕ
  | [] => 0
  | a :: rest => if a.1 < ts then bisectLeft ts rest + 1 else 0

/-- Shallow embedding of `get_delta`: 0 anchors returns the current global
delta, 1 anchor returns its delta, otherwise bisect for `ts`, clamp at the
ends, and linearly interpolate between the bracketing anchors. -/
def effectiveDelta (current : ℚ) (anchors : List (ℚ × ℚ)) (ts : ℚ) : ℚ :=
  match anchors with
  | [] => current
  | [a] => a.2
  | a :: b :: rest =>
    let l := a :: b :: rest
    let upperI := bisectLeft ts l
    if upperI = l.length then (l.getLast (by simp)).2
    else if upperI = 0 then a.2
    else
      let upper := l.getD upperI (0, 0)
      let lower := l.getD (upperI - 1) (0, 0)
      lower.2 + (ts - lower.1) / (upper.1 - lower.1) * (upper.2 - lower.2)

/-- Key-sortedness of the anchor list: strictly ascending first components. -/
def KeySorted (l : List (ℚ × ℚ)) : Prop :=
  l.Pairwise (fun x y => x.1 < y.1)

lemma keySorted_getD_lt {l : List (ℚ × ℚ)} (hs : KeySorted l)
    {i j : ℕ} (hij : i < j) (hj : j < l.length) :
    (l.getD i (0, 0)).1 < (l.getD j (0, 0)).1 := by
  have hi : i < l.length := lt_trans hij hj
  rw [List.getD_eq_getElem _ _ hi, List.getD_eq_getElem _ _ hj]
  exact List.pairwise_iff_getElem.mp hs i j hi hj hij

lemma bisectLeft_le_length (ts : ℚ) (l : List (ℚ × ℚ)) :
    bisectLeft ts l ≤ l.length := by
  induction l with
  | nil => simp [bisectLeft]
  | cons a rest ih =>
    by_cases h : a.1 < ts <;> simp [bisectLeft, h]
    omega

lemma bisectLeft_eq_length (ts : ℚ) (l : List (ℚ × ℚ))
    (h : ∀ x ∈ l, x.1 < ts) : bisectLeft ts l = l.length := by
  induction l with
  | nil => rfl
  | cons a rest ih =>
    have ha : a.1 < ts := h a (by simp)
    simp only [bisectLeft, if_pos ha, List.length_cons]
    rw [ih (fun x hx => h x (by simp [hx]))]

lemma bisectLeft_eq_succ (ts : ℚ) :
    ∀ (l : List (ℚ × ℚ)), KeySorted l →
    ∀ i, i < l.length → (l.getD i (0, 0)).1 < ts →
    (i + 1 = l.length ∨ ¬ (l.getD (i + 1) (0, 0)).1 < ts) →
    bisectLeft ts l = i + 1 := by
  intro l
  induction l with
  | nil => intro _ i hi; simp at hi
  | cons a rest ih =>
    intro hp i hi hlt hub
    rcases List.pairwise_cons.mp hp with ⟨hhead, htail⟩
    cases i with
    | zero =>
      simp only [List.getD_cons_zero] at hlt
      have hzero : bisectLeft ts rest = 0 := by
        cases rest with
        | nil => rfl
        | cons b r2 =>
          rcases hub with h1 | h2
          · simp at h1
          · simp only [List.getD_cons_succ, List.getD_cons_zero] at h2
            simp [bisectLeft, h2]
      simp [bisectLeft, hlt, hzero]
    | succ k =>
      have hk : k < rest.length := by simpa using hi
      have hmem : rest.getD k (0, 0) ∈ rest := by
        rw [List.getD_eq_getElem _ _ hk]
        exact List.getElem_mem hk
      have ha : a.1 < ts := lt_trans (hhead _ hmem) hlt
      have hrec := ih htail k hk (by simpa using hlt) (by
        rcases hub with h1 | h2
        · left; simpa using h1
        · right; simpa using h2)
      simp [bisectLeft, ha, hrec]

lemma keySorted_tail {a : ℚ × ℚ} {rest : List (ℚ × ℚ)}
    (h : KeySorted (a :: rest)) : KeySorted rest :=
  (List.pairwise_cons.mp h).2

/-- Value of `effectiveDelta` on a bracketing pair of adjacent anchors:
if `t_i ≤ ts ≤ t_(i+1)` then the result is the linear interpolation between
anchor `i` and anchor `i+1`. -/
lemma effectiveDelta_bracket (current ts : ℚ) (a b : ℚ × ℚ)
    (rest : List (ℚ × ℚ)) (hs : KeySorted (a :: b :: rest)) (i : ℕ)
    (hi : i + 1 < (a :: b :: rest).length)
    (hlo : ((a :: b :: rest).getD i (0, 0)).1 ≤ ts)
    (hhi : ts ≤ ((a :: b :: rest).getD (i + 1) (0, 0)).1) :
    effectiveDelta current (a :: b :: rest) ts =
      ((a :: b :: rest).getD i (0, 0)).2 +
        (ts - ((a :: b :: rest).getD i (0, 0)).1) /
            (((a :: b :: rest).getD (i + 1) (0, 0)).1 -
              ((a :: b :: rest).getD i (0, 0)).1) *
          (((a :: b :: rest).getD (i + 1) (0, 0)).2 -
            ((a :: b :: rest).getD i (0, 0)).2) := by
  rcases lt_or_eq_of_le hlo with hlt | heq
  · -- strict lower bound: the bisection lands exactly at i + 1
    have hb : bisectLeft ts (a :: b :: rest) = i + 1 :=
      bisectLeft_eq_succ ts (a :: b :: rest) hs i (by omega) hlt
        (Or.inr (not_lt.mpr hhi))
    simp only [effectiveDelta, hb]
    rw [if_neg (by omega : ¬ i + 1 = (a :: b :: rest).length),
      if_neg (by omega : ¬ i + 1 = 0)]
    simp only [Nat.add_sub_cancel]
  · -- ts coincides with the lower anchor key
    cases i with
    | zero =>
      -- ts = first key: bisection returns 0, both sides give the first delta
      simp only [List.getD_cons_zero] at heq
      have hb : bisectLeft ts (a :: b :: rest) = 0 := by
        simp [bisectLeft, heq]
      simp only [effectiveDelta, hb]
      simp only [if_true]
      simp [List.getD_cons_zero, ← heq]
    | succ k =>
      -- ts = key of anchor k+1 with k+1 < length - 1: the bisection returns
      -- k+1 and interpolation between anchors k and k+1 degenerates to the
      -- delta of anchor k+1, as does the interpolation between anchors
      -- k+1 and k+2 claimed on the right-hand side.
      have hklt : ((a :: b :: rest).getD k (0, 0)).1 <
          ((a :: b :: rest).getD (k + 1) (0, 0)).1 :=
        keySorted_getD_lt hs (by omega) (by omega)
      have hb : bisectLeft ts (a :: b :: rest) = k + 1 :=
        bisectLeft_eq_succ ts (a :: b :: rest) hs k (by omega)
          (heq ▸ hklt) (Or.inr (not_lt.mpr (le_of_eq heq.symm)))
      simp only [effectiveDelta, hb]
      rw [if_neg (by simp only [List.length_cons] at hi ⊢; omega),
        if_neg (by omega : ¬ k + 1 = 0)]
      simp only [Nat.add_sub_cancel]
      rw [← heq]
      have hne : ((a :: b :: rest).getD (k + 1) (0, 0)).1 -
          ((a :: b :: rest).getD k (0, 0)).1 ≠ 0 := sub_ne_zero.mpr hklt.ne'
      rw [div_self hne, sub_self, zero_div, zero_mul, add_zero, one_mul]
      ring

/-- C1: behaviour of the anchor-delta interpolation.  Over a key-sorted
anchor set: with no anchors the result is the global current delta; with one
anchor, that anchor's delta; with two or more anchors, a query at or before
the first anchor gets the first delta, at or after the last anchor the last
delta, and between two adjacent anchors the linear interpolation
`d_lower + (d_upper - d_lower) * (ts - t_lower) / (t_upper - t_lower)`. -/
theorem c1_effective_delta (current ts : ℚ) (anchors : List (ℚ × ℚ))
    (hs : KeySorted anchors) :
    (anchors = [] → effectiveDelta current anchors ts = current)
    ∧ (∀ a, anchors = [a] → effectiveDelta current anchors ts = a.2)
    ∧ (2 ≤ anchors.length →
        (ts ≤ (anchors.getD 0 (0, 0)).1 →
          effectiveDelta current anchors ts = (anchors.getD 0 (0, 0)).2)
        ∧ ((anchors.getD (anchors.length - 1) (0, 0)).1 ≤ ts →
          effectiveDelta current anchors ts =
            (anchors.getD (anchors.length - 1) (0, 0)).2)
        ∧ (∀ i, i + 1 < anchors.length →
            (anchors.getD i (0, 0)).1 ≤ ts → ts ≤ (anchors.getD (i + 1) (0, 0)).1 →
            effectiveDelta current anchors ts =
              (anchors.getD i (0, 0)).2 +
                ((anchors.getD (i + 1) (0, 0)).2 - (anchors.getD i (0, 0)).2) *
                  (ts - (anchors.getD i (0, 0)).1) /
                    ((anchors.getD (i + 1) (0, 0)).1 - (anchors.getD i (0, 0)).1))) := by
  refine ⟨fun h => by subst h; rfl, fun a h => by subst h; rfl, ?_⟩
  intro h2
  match anchors, hs with
  | a :: b :: rest, hs =>
  refine ⟨?_, ?_, ?_⟩
  · -- at or before the first anchor
    intro hts
    simp only [List.getD_cons_zero] at hts ⊢
    have hb : bisectLeft ts (a :: b :: rest) = 0 := by
      simp [bisectLeft, not_lt.mpr hts]
    simp only [effectiveDelta, hb]
    rw [if_neg (by simp)]
    simp
  · -- at or after the last anchor
    intro hts
    have hlast : (a :: b :: rest).length - 1 = rest.length + 1 := by simp
    rw [hlast] at hts ⊢
    rcases eq_or_lt_of_le hts with heq | hlt
    · -- ts equals the last key: interpolation on the final pair degenerates
      have hklt : ((a :: b :: rest).getD rest.length (0, 0)).1 <
          ((a :: b :: rest).getD (rest.length + 1) (0, 0)).1 :=
        keySorted_getD_lt hs (by omega) (by simp)
      have hbr := effectiveDelta_bracket current ts a b rest hs rest.length
        (by simp) (le_of_lt (heq ▸ hklt)) (le_of_eq heq.symm)
      rw [hbr, heq]
      have hne : ts - ((a :: b :: rest).getD rest.length (0, 0)).1 ≠ 0 :=
        sub_ne_zero.mpr (ne_of_gt (heq ▸ hklt))
      rw [div_self hne, one_mul]
      ring
    · -- ts is strictly after the last key: every key is below ts
      have hall : ∀ x ∈ (a :: b :: rest), x.1 < ts := by
        intro x hx
        obtain ⟨j, hj, hxe⟩ := List.mem_iff_getElem.mp hx
        rw [← List.getD_eq_getElem _ (0, 0) hj] at hxe
        subst hxe
        rcases Nat.lt_or_ge j (rest.length + 1) with hj1 | hj1
        · exact lt_trans (keySorted_getD_lt hs hj1 (by simp)) hlt
        · have : j = rest.length + 1 := by simp at hj; omega
          rw [this]
          exact hlt
      have hb : bisectLeft ts (a :: b :: rest) = (a :: b :: rest).length :=
        bisectLeft_eq_length ts _ hall
      simp only [effectiveDelta, hb, if_true]
      rw [List.getLast_eq_getElem, ← List.getD_eq_getElem _ (0, 0) (by simp)]
      simp
  · -- strictly between two adjacent anchors
    intro i hi hlo hhi
    rw [effectiveDelta_bracket current ts a b rest hs i hi hlo hhi]
    ring

/-- Witness for C1 at a concrete anchor set: anchors (0 ↦ 10) and (4 ↦ 20),
query ts = 1, interpolated delta 10 + (20 - 10) * (1 - 0) / (4 - 0). -/
theorem c1_witness :
    KeySorted [((0 : ℚ), (10 : ℚ)), (4, 20)]
    ∧ effectiveDelta 99 [((0 : ℚ), (10 : ℚ)), (4, 20)] 1 =
        10 + (20 - 10) * (1 - 0) / (4 - 0) := by
  have hs : KeySorted [((0 : ℚ), (10 : ℚ)), (4, 20)] := by
    norm_num [KeySorted]
  refine ⟨hs, ?_⟩
  have h := ((c1_effective_delta 99 1 _ hs).2.2 (by norm_num)).2.2 0
    (by norm_num) (by norm_num) (by norm_num)
  simpa using h

/- ## MplCodec in-place write (`MplFile.write` in `mpl_extract.py`)

The binary file is modelled as a list of byte values.  One `MtsInfo` record
holds the rewrite anchor (`seek_pos`) captured at read time, the clip id
(parsed back from the `"{:05d}.MTS"` key), the six datetime fields and the
dirty flag.  Reads past the end of the file are modelled as the value 0,
which fails the equality checks exactly as Python's short reads fail the
assertions (the theorems below restrict attention to anchors lying inside
the file, where the two models agree byte for byte). -/

/-- One clip record as held in `MplFile.db` (an `MtsInfo` plus the data
needed to rewrite it). -/
structure MtsRec where
  seekPos : ℕ
  clipId : ℕ
  year : ℕ
  month : ℕ
  day : ℕ
  hour : ℕ
  minute : ℕ
  second : ℕ
  dirty : Bool
deriving Repr, DecidableEq

/-- Byte of the file at index `i` (0 past the end). -/
def byteAt (f : List ℕ) (i : ℕ) : ℕ := f.getD i 0

/-- Big-endian 2-byte rendering of `n` (`to_bytes(2, byteorder='big')`). -/
def be2 (n : ℕ) : List ℕ := [n / 256 % 256, n % 256]

/-- Overwrite the bytes of `f` starting at `pos` with `bs` (an in-place
`f.write` at seek position `pos`). -/
def writeBytesAt (f : List ℕ) (pos : ℕ) (bs : List ℕ) : List ℕ :=
  f.take pos ++ bs ++ f.drop (pos + bs.length)

/-- Decimal digit characters of `n` (`"{:d}".format(n)`), as byte values. -/
def decChars (n : ℕ) : List ℕ :=
  if n = 0 then [48] else ((Nat.digits 10 n).reverse.map (fun d => d + 48))

/-- Left-pad a byte string with spaces to width `w` (`"{:Nd}"`). -/
def padLeft (w : ℕ) (s : List ℕ) : List ℕ :=
  List.replicate (w - s.length) 32 ++ s

/-- Confirmation string `f"{year:4d}.{month:2d}.{day:2d}"` as bytes. -/
def asciiDate (y m d : ℕ) : List ℕ :=
  padLeft 4 (decChars y) ++ [46] ++ padLeft 2 (decChars m) ++ [46] ++ padLeft 2 (decChars d)

/-- Result of writing one record: success flag and the file contents after
whatever bytes were written before success or failure. -/
structure RecResult where
  ok : Bool
  file : List ℕ
deriving Repr, DecidableEq

/-- Re-verification at the rewrite anchor, from `MplFile.write`:
`assert f.read(2) == int(mts_filename[:-4]).to_bytes(2, byteorder='big')`
and `assert f.read(1) == b'\x1E'`. -/
def anchorOk (f : List ℕ) (r : MtsRec) : Prop :=
  [byteAt f r.seekPos, byteAt f (r.seekPos + 1)] = be2 r.clipId
    ∧ byteAt f (r.seekPos + 2) = 30

instance (f : List ℕ) (r : MtsRec) : Decidable (anchorOk f r) := by
  unfold anchorOk; infer_instance

/-- Kind-marker re-verification, from `MplFile.write`:
`assert f.read(2) in {b'\x90\x0A', b'\x90\x0C'}` at offset `p + 10`. -/
def kindMarkerOk (f : List ℕ) (p : ℕ) : Prop :=
  byteAt f (p + 10) = 144 ∧ (byteAt f (p + 11) = 10 ∨ byteAt f (p + 11) = 12)

instance (f : List ℕ) (p : ℕ) : Decidable (kindMarkerOk f p) := by
  unfold kindMarkerOk; infer_instance

/-- The five single-byte packed fields written after the year. -/
def tsFieldBytes (r : MtsRec) : List ℕ :=
  [packedEncode r.month, packedEncode r.day, packedEncode r.hour,
    packedEncode r.minute, packedEncode r.second]

/-- Timestamp overwrite of one record: the packed year (2 bytes big-endian at
`seekPos + 3`) followed by the five packed 1-byte fields (at `seekPos + 5`). -/
def writeTsBytes (f : List ℕ) (r : MtsRec) : List ℕ :=
  writeBytesAt (writeBytesAt f (r.seekPos + 3) (be2 (packedEncode r.year)))
    (r.seekPos + 5) (tsFieldBytes r)

/-- Body of the per-record loop of `MplFile.write`: seek to the rewrite
anchor; assert the 2-byte clip id and the `0x1E` separator still match;
overwrite the packed year (2 bytes) and the five 1-byte fields; assert the
2-byte kind marker is one of `90 0A` / `90 0C`; overwrite the 10-byte ASCII
date.  A failed assertion raises, leaving the file as written so far. -/
def writeRecord (f : List ℕ) (r : MtsRec) : RecResult :=
  if anchorOk f r then
    let f2 := writeTsBytes f r
    if kindMarkerOk f2 r.seekPos then
      ⟨true, writeBytesAt f2 (r.seekPos + 12) (asciiDate r.year r.month r.day)⟩
    else ⟨false, f2⟩
  else ⟨false, f⟩

/-- Result of a whole `MplFile.write` pass: success flag, file contents, and
the record list with its (possibly partially cleared) dirty flags. -/
structure WriteResult where
  ok : Bool
  file : List ℕ
  recs : List MtsRec
deriving Repr, DecidableEq

/-- The per-record loop of `MplFile.write`: records are processed in order,
non-dirty records are skipped, each dirty record's flag is cleared right
after its own bytes are written, and a failed assertion aborts the loop with
the state mutated so far kept. -/
def mplWriteGo (f : List ℕ) : List MtsRec → WriteResult
  | [] => ⟨true, f, []⟩
  | r :: rest =>
    if r.dirty then
      let res := writeRecord f r
      if res.ok then
        let tail := mplWriteGo res.file rest
        ⟨tail.ok, tail.file, { r with dirty := false } :: tail.recs⟩
      else ⟨false, res.file, r :: rest⟩
    else
      let tail := mplWriteGo f rest
      ⟨tail.ok, tail.file, r :: tail.recs⟩

/-- Shallow embedding of `MplFile.write`: a no-op when no record is dirty,
else the per-record loop above. -/
def mplWrite (f : List ℕ) (recs : List MtsRec) : WriteResult :=
  if recs.all (fun r => !r.dirty) then ⟨true, f, recs⟩
  else mplWriteGo f recs

/-- Byte window a record's rewrite may touch: the timestamp field bytes
`[seekPos+3, seekPos+10)` and the ASCII date bytes `[seekPos+12, seekPos+22)`
recorded at read time (the ASCII window is given the length of the written
string, which is 10 bytes whenever the year is at most 9999). -/
def RecWindow (r : MtsRec) (i : ℕ) : Prop :=
  (r.seekPos + 3 ≤ i ∧ i < r.seekPos + 10) ∨
    (r.seekPos + 12 ≤ i ∧ i < r.seekPos + 12 + (asciiDate r.year r.month r.day).length)

instance (r : MtsRec) (i : ℕ) : Decidable (RecWindow r i) := by
  unfold RecWindow; infer_instance

lemma byteAt_writeBytesAt_of_lt (f : List ℕ) (pos : ℕ) (bs : List ℕ)
    (i : ℕ) (hi : i < pos) (hpos : pos ≤ f.length) :
    byteAt (writeBytesAt f pos bs) i = byteAt f i := by
  unfold byteAt writeBytesAt
  rw [List.getD_eq_getElem?_getD, List.getD_eq_getElem?_getD]
  rw [List.append_assoc]
  rw [List.getElem?_append_left
    (by simpa [List.length_take, Nat.min_eq_left hpos] using hi)]
  rw [List.getElem?_take, if_pos hi]

lemma byteAt_writeBytesAt_of_ge (f : List ℕ) (pos : ℕ) (bs : List ℕ)
    (i : ℕ) (hi : pos + bs.length ≤ i) (hpos : pos ≤ f.length) :
    byteAt (writeBytesAt f pos bs) i = byteAt f i := by
  unfold byteAt writeBytesAt
  rw [List.getD_eq_getElem?_getD, List.getD_eq_getElem?_getD]
  have hlen : (f.take pos ++ bs).length = pos + bs.length := by
    simp [List.length_take, Nat.min_eq_left hpos]
  rw [List.getElem?_append_right (by omega : (f.take pos ++ bs).length ≤ i)]
  rw [hlen, List.getElem?_drop]
  have harith : pos + bs.length + (i - (pos + bs.length)) = i := by omega
  rw [harith]

lemma byteAt_lt_length_of_ne_zero {f : List ℕ} {i : ℕ} (h : byteAt f i ≠ 0) :
    i < f.length := by
  by_contra hge
  exact h (List.getD_eq_default _ _ (by omega))

lemma writeBytesAt_length {f : List ℕ} (p : ℕ) (bs : List ℕ)
    (h : p ≤ f.length) :
    (writeBytesAt f p bs).length = max f.length (p + bs.length) := by
  simp only [writeBytesAt, List.length_append, List.length_take,
    List.length_drop, Nat.min_eq_left h]
  omega

lemma anchorOk_length {f : List ℕ} {r : MtsRec} (h : anchorOk f r) :
    r.seekPos + 3 ≤ f.length := by
  have := byteAt_lt_length_of_ne_zero (f := f) (i := r.seekPos + 2)
    (by rw [h.2]; norm_num)
  omega

lemma writeTsBytes_frame {f : List ℕ} {r : MtsRec} (i : ℕ)
    (hlen : r.seekPos + 3 ≤ f.length)
    (hi : i < r.seekPos + 3 ∨ r.seekPos + 10 ≤ i) :
    byteAt (writeTsBytes f r) i = byteAt f i := by
  have h1len : (writeBytesAt f (r.seekPos + 3) (be2 (packedEncode r.year))).length
      = max f.length (r.seekPos + 5) := by
    simpa [be2] using writeBytesAt_length (f := f) (r.seekPos + 3)
      (be2 (packedEncode r.year)) (by omega)
  unfold writeTsBytes
  rcases hi with hlt | hge
  · rw [byteAt_writeBytesAt_of_lt _ _ _ _ (by omega) (by rw [h1len]; omega)]
    rw [byteAt_writeBytesAt_of_lt _ _ _ _ hlt (by omega)]
  · rw [byteAt_writeBytesAt_of_ge _ _ _ _ (by simp [tsFieldBytes]; omega)
      (by rw [h1len]; omega)]
    rw [byteAt_writeBytesAt_of_ge _ _ _ _ (by simp [be2]; omega) (by omega)]

lemma writeTsBytes_length {f : List ℕ} {r : MtsRec}
    (hlen : r.seekPos + 3 ≤ f.length) :
    (writeTsBytes f r).length = max f.length (r.seekPos + 10) := by
  have h1len : (writeBytesAt f (r.seekPos + 3) (be2 (packedEncode r.year))).length
      = max f.length (r.seekPos + 5) := by
    simpa [be2] using writeBytesAt_length (f := f) (r.seekPos + 3)
      (be2 (packedEncode r.year)) (by omega)
  unfold writeTsBytes
  rw [writeBytesAt_length _ _ (by rw [h1len]; omega), h1len]
  simp [tsFieldBytes]
  omega

lemma kindMarkerOk_length {f : List ℕ} {p : ℕ} (h : kindMarkerOk f p) :
    p + 12 ≤ f.length := by
  have h11 : byteAt f (p + 11) ≠ 0 := by rcases h.2 with h2 | h2 <;> rw [h2] <;> norm_num
  have := byteAt_lt_length_of_ne_zero h11
  omega

/-- Frame property of a single record rewrite: no byte outside the record's
recorded windows is modified, in any outcome (success, anchor-check failure,
or kind-marker failure after the partial timestamp write). -/
lemma writeRecord_frame (f : List ℕ) (r : MtsRec) (i : ℕ)
    (hi : ¬ RecWindow r i) :
    byteAt (writeRecord f r).file i = byteAt f i := by
  unfold writeRecord
  by_cases hchk : anchorOk f r
  · have hplen := anchorOk_length hchk
    rw [if_pos hchk]
    simp only [RecWindow, not_or, not_and, not_lt] at hi
    have hout : i < r.seekPos + 3 ∨ r.seekPos + 10 ≤ i := by omega
    by_cases hkind : kindMarkerOk (writeTsBytes f r) r.seekPos
    · rw [if_pos hkind]
      have h12 := kindMarkerOk_length hkind
      have hfr2 := writeTsBytes_frame (f := f) (r := r) i hplen hout
      rcases Nat.lt_or_ge i (r.seekPos + 12) with hlt12 | hge12
      · rw [byteAt_writeBytesAt_of_lt _ _ _ _ hlt12 h12]
        exact hfr2
      · have hia : r.seekPos + 12 + (asciiDate r.year r.month r.day).length ≤ i := by
          rcases hi with ⟨hi1, hi2⟩
          omega
        rw [byteAt_writeBytesAt_of_ge _ _ _ _ hia h12]
        exact hfr2
    · rw [if_neg hkind]
      exact writeTsBytes_frame i hplen hout
  · rw [if_neg hchk]

lemma mplWriteGo_frame (i : ℕ) :
    ∀ (recs : List MtsRec) (f : List ℕ),
    (∀ r ∈ recs, r.dirty = true → ¬ RecWindow r i) →
    byteAt (mplWriteGo f recs).file i = byteAt f i := by
  intro recs
  induction recs with
  | nil => intro f _; rfl
  | cons r rest ih =>
    intro f hout
    by_cases hd : r.dirty
    · by_cases hok : (writeRecord f r).ok
      · have h1 : byteAt (writeRecord f r).file i = byteAt f i :=
          writeRecord_frame f r i (hout r (by simp) hd)
        have h2 := ih (writeRecord f r).file (fun x hx => hout x (by simp [hx]))
        simp only [mplWriteGo, if_pos hd, if_pos hok]
        rw [h2, h1]
      · simp only [mplWriteGo, if_pos hd, if_neg hok]
        exact writeRecord_frame f r i (hout r (by simp) hd)
    · simp only [mplWriteGo, if_neg hd]
      exact ih f (fun x hx => hout x (by simp [hx]))

/-- C6: offset safety of `MplFile.write`.  (1) If the 2-byte clip id or the
`0x1E` separator at a record's rewrite anchor no longer match the file's
current contents, the record write is refused with the file untouched;
(2) if the 2-byte kind marker no longer matches, the write is refused (after
the timestamp bytes, which lie inside the recorded window, were written);
(3) a record rewrite never modifies a byte outside that record's recorded
windows, in any outcome; (4) consequently a whole write pass only modifies
byte offsets inside the windows recorded for its dirty records. -/
theorem c6_write_offset_safety :
    (∀ (f : List ℕ) (r : MtsRec), ¬ anchorOk f r → writeRecord f r = ⟨false, f⟩)
    ∧ (∀ (f : List ℕ) (r : MtsRec), anchorOk f r →
        ¬ kindMarkerOk (writeTsBytes f r) r.seekPos → (writeRecord f r).ok = false)
    ∧ (∀ (f : List ℕ) (r : MtsRec) (i : ℕ), ¬ RecWindow r i →
        byteAt (writeRecord f r).file i = byteAt f i)
    ∧ (∀ (f : List ℕ) (recs : List MtsRec) (i : ℕ),
        (∀ r ∈ recs, r.dirty = true → ¬ RecWindow r i) →
        byteAt (mplWrite f recs).file i = byteAt f i) := by
  refine ⟨?_, ?_, ?_, ?_⟩
  · intro f r h
    simp [writeRecord, if_neg h]
  · intro f r h hk
    simp [writeRecord, if_pos h, if_neg hk]
  · exact fun f r i hi => writeRecord_frame f r i hi
  · intro f recs i hout
    unfold mplWrite
    by_cases hall : recs.all (fun r => !r.dirty)
    · rw [if_pos hall]
    · rw [if_neg hall]
      exact mplWriteGo_frame i recs f hout

/-- Witness for C6 at a concrete input: a record whose clip id bytes no
longer match is refused with the file unchanged. -/
theorem c6_witness :
    ¬ anchorOk [9, 9, 30] ⟨0, 2, 1, 1, 1, 1, 1, 1, true⟩
    ∧ writeRecord [9, 9, 30] ⟨0, 2, 1, 1, 1, 1, 1, 1, true⟩ = ⟨false, [9, 9, 30]⟩ := by
  have hna : ¬ anchorOk [9, 9, 30] ⟨0, 2, 1, 1, 1, 1, 1, 1, true⟩ := by
    decide
  exact ⟨hna, c6_write_offset_safety.1 _ _ hna⟩

/-- Clearing of one record's dirty flag (`info.dirty = False`). -/
def clearDirty (r : MtsRec) : MtsRec := { r with dirty := false }

lemma clearDirty_of_clean {r : MtsRec} (h : r.dirty = false) : clearDirty r = r := by
  cases r
  simp_all [clearDirty]

lemma mplWriteGo_cons_dirty_ok {f : List ℕ} {r : MtsRec} (rest : List MtsRec)
    (hd : r.dirty = true) (hok : (writeRecord f r).ok = true) :
    mplWriteGo f (r :: rest) =
      ⟨(mplWriteGo (writeRecord f r).file rest).ok,
        (mplWriteGo (writeRecord f r).file rest).file,
        clearDirty r :: (mplWriteGo (writeRecord f r).file rest).recs⟩ := by
  simp [mplWriteGo, hd, hok, clearDirty]

lemma mplWriteGo_cons_dirty_fail {f : List ℕ} {r : MtsRec} (rest : List MtsRec)
    (hd : r.dirty = true) (hok : (writeRecord f r).ok = false) :
    mplWriteGo f (r :: rest) = ⟨false, (writeRecord f r).file, r :: rest⟩ := by
  simp [mplWriteGo, hd, hok]

lemma mplWriteGo_cons_clean {f : List ℕ} {r : MtsRec} (rest : List MtsRec)
    (hd : r.dirty = false) :
    mplWriteGo f (r :: rest) =
      ⟨(mplWriteGo f rest).ok, (mplWriteGo f rest).file, r :: (mplWriteGo f rest).recs⟩ := by
  simp [mplWriteGo, hd]

lemma mplWriteGo_ok_clears :
    ∀ (recs : List MtsRec) (f : List ℕ), (mplWriteGo f recs).ok = true →
    (mplWriteGo f recs).recs = recs.map clearDirty := by
  intro recs
  induction recs with
  | nil => intro f _; rfl
  | cons r rest ih =>
    intro f hok
    by_cases hd : r.dirty
    · by_cases hw : (writeRecord f r).ok
      · rw [mplWriteGo_cons_dirty_ok rest hd hw] at hok ⊢
        simp only [List.map_cons]
        rw [ih _ hok]
      · rw [mplWriteGo_cons_dirty_fail rest hd (by simpa using hw)] at hok
        simp at hok
    · have hd' : r.dirty = false := by simpa using hd
      rw [mplWriteGo_cons_clean rest hd'] at hok ⊢
      simp only [List.map_cons, clearDirty_of_clean hd']
      rw [ih _ hok]

lemma mplWriteGo_fail_structure :
    ∀ (recs : List MtsRec) (f : List ℕ), (mplWriteGo f recs).ok = false →
    ∃ pre r post, recs = pre ++ r :: post ∧ r.dirty = true ∧
      (mplWriteGo f recs).recs = pre.map clearDirty ++ r :: post := by
  intro recs
  induction recs with
  | nil => intro f hok; simp [mplWriteGo] at hok
  | cons r rest ih =>
    intro f hok
    by_cases hd : r.dirty
    · by_cases hw : (writeRecord f r).ok
      · rw [mplWriteGo_cons_dirty_ok rest hd hw] at hok ⊢
        simp only at hok
        obtain ⟨pre, r2, post, hsplit, hdirty, hrecs⟩ := ih _ hok
        exact ⟨r :: pre, r2, post, by simp [hsplit], hdirty, by simp [hrecs, clearDirty]⟩
      · rw [mplWriteGo_cons_dirty_fail rest hd (by simpa using hw)]
        exact ⟨[], r, rest, by simp, hd, by simp⟩
    · have hd' : r.dirty = false := by simpa using hd
      rw [mplWriteGo_cons_clean rest hd'] at hok ⊢
      simp only at hok
      obtain ⟨pre, r2, post, hsplit, hdirty, hrecs⟩ := ih _ hok
      refine ⟨r :: pre, r2, post, by simp [hsplit], hdirty, ?_⟩
      simp [hrecs, clearDirty_of_clean hd']

lemma map_clearDirty_of_clean {recs : List MtsRec}
    (h : ∀ r ∈ recs, r.dirty = false) : recs.map clearDirty = recs := by
  induction recs with
  | nil => rfl
  | cons r rest ih =>
    simp only [List.map_cons, clearDirty_of_clean (h r (by simp)),
      ih (fun x hx => h x (by simp [hx]))]

/-- Amended C7: dirty flags are cleared per record as soon as that record's
own bytes are written, not only after a fully successful pass.  Hence:
(1) when no record is dirty, `write` is a no-op on the file and the flags;
(2) after a fully successful pass every record's flag is cleared; but
(3) when the pass fails partway, the records before the failing record have
their dirty flags already cleared, while the failing record (which was
dirty) and every record after it keep their flags. -/
theorem c7_amended_dirty_flags :
    (∀ (f : List ℕ) (recs : List MtsRec), (∀ r ∈ recs, r.dirty = false) →
        mplWrite f recs = ⟨true, f, recs⟩)
    ∧ (∀ (f : List ℕ) (recs : List MtsRec), (mplWrite f recs).ok = true →
        (mplWrite f recs).recs = recs.map clearDirty)
    ∧ (∀ (f : List ℕ) (recs : List MtsRec), (mplWrite f recs).ok = false →
        ∃ pre r post, recs = pre ++ r :: post ∧ r.dirty = true ∧
          (mplWrite f recs).recs = pre.map clearDirty ++ r :: post) := by
  refine ⟨?_, ?_, ?_⟩
  · intro f recs h
    unfold mplWrite
    rw [if_pos]
    rw [List.all_eq_true]
    intro r hr
    simp [h r hr]
  · intro f recs hok
    unfold mplWrite at hok ⊢
    by_cases hall : recs.all (fun r => !r.dirty)
    · rw [if_pos hall] at hok ⊢
      rw [map_clearDirty_of_clean (fun r hr => by
        simpa using List.all_eq_true.mp hall r hr)]
    · rw [if_neg hall] at hok ⊢
      exact mplWriteGo_ok_clears recs f hok
  · intro f recs hok
    unfold mplWrite at hok ⊢
    by_cases hall : recs.all (fun r => !r.dirty)
    · rw [if_pos hall] at hok
      simp at hok
    · rw [if_neg hall] at hok ⊢
      exact mplWriteGo_fail_structure recs f hok

/-- Witness for the amended C7: a pass over one clean record is a no-op. -/
theorem c7_amended_witness :
    (∀ r ∈ [(⟨0, 1, 1, 1, 1, 1, 1, 1, false⟩ : MtsRec)], r.dirty = false)
    ∧ mplWrite [1, 2, 3] [⟨0, 1, 1, 1, 1, 1, 1, 1, false⟩] =
        ⟨true, [1, 2, 3], [⟨0, 1, 1, 1, 1, 1, 1, 1, false⟩]⟩ := by
  refine ⟨by decide, c7_amended_dirty_flags.1 _ _ (by decide)⟩

lemma padLeft_length {w : ℕ} {s : List ℕ} (h : s.length ≤ w) :
    (padLeft w s).length = w := by
  simp [padLeft]
  omega

lemma decChars_length_le {n k : ℕ} (hk : 1 ≤ k) (hn : n < 10 ^ k) :
    (decChars n).length ≤ k := by
  unfold decChars
  by_cases h0 : n = 0
  · rw [if_pos h0]
    simpa using hk
  · rw [if_neg h0]
    simpa using digits10_len_le hn

lemma asciiDate_length {y m d : ℕ} (hy : y < 10000) (hm : m < 100) (hd : d < 100) :
    (asciiDate y m d).length = 10 := by
  unfold asciiDate
  rw [List.length_append, List.length_append, List.length_append,
    List.length_append]
  rw [padLeft_length (decChars_length_le (by norm_num)
        (show y < 10 ^ 4 by simpa using hy)),
    padLeft_length (decChars_length_le (by norm_num)
        (show m < 10 ^ 2 by simpa using hm)),
    padLeft_length (decChars_length_le (by norm_num)
        (show d < 10 ^ 2 by simpa using hd))]
  simp

/-- Concrete two-record file for the C7 refutation: the first record's
anchor bytes (clip id 1, separator 0x1E, kind marker 90 0A) are intact; the
second record's clip id bytes were externally changed to 9 9. -/
def c7File : List ℕ :=
  [0, 1, 30, 0, 0, 0, 0, 0, 0, 0, 144, 10, 0, 0, 0, 0, 0, 0, 0, 0, 0, 0,
    9, 9, 30, 0, 0, 0, 0, 0, 0, 0, 144, 10, 0, 0, 0, 0, 0, 0, 0, 0, 0, 0]

/-- First (intact) dirty record at anchor 0, clip id 1. -/
def c7Rec1 : MtsRec := ⟨0, 1, 1, 1, 1, 1, 1, 1, true⟩

/-- Second (corrupted) dirty record at anchor 22, clip id 2. -/
def c7Rec2 : MtsRec := ⟨22, 2, 1, 1, 1, 1, 1, 1, true⟩

/-- Counterexample to C7 as stated: both records are dirty before the pass;
the pass fails on the second record's clip-id re-verification; yet the first
record's dirty flag has already been cleared, so not every record that was
dirty before the failing pass is still dirty afterwards. -/
theorem c7_counterexample :
    (∀ r ∈ [c7Rec1, c7Rec2], r.dirty = true)
    ∧ (mplWrite c7File [c7Rec1, c7Rec2]).ok = false
    ∧ (mplWrite c7File [c7Rec1, c7Rec2]).recs.map (fun r => r.dirty) = [false, true] := by
  have hlen1 : c7Rec1.seekPos + 3 ≤ c7File.length := by decide
  have hanchor1 : anchorOk c7File c7Rec1 := by decide
  have hkind : kindMarkerOk (writeTsBytes c7File c7Rec1) c7Rec1.seekPos := by
    constructor
    · rw [writeTsBytes_frame (c7Rec1.seekPos + 10) hlen1 (Or.inr (by omega))]
      decide
    · left
      rw [writeTsBytes_frame (c7Rec1.seekPos + 11) hlen1 (Or.inr (by omega))]
      decide
  have h1 : writeRecord c7File c7Rec1 =
      ⟨true, writeBytesAt (writeTsBytes c7File c7Rec1) (c7Rec1.seekPos + 12)
        (asciiDate c7Rec1.year c7Rec1.month c7Rec1.day)⟩ := by
    simp only [writeRecord]
    rw [if_pos hanchor1, if_pos hkind]
  have halen : (asciiDate c7Rec1.year c7Rec1.month c7Rec1.day).length = 10 :=
    asciiDate_length (by decide) (by decide) (by decide)
  have hwin22 : ¬ RecWindow c7Rec1 c7Rec2.seekPos := by
    unfold RecWindow
    rw [halen]
    decide
  have hb22 : byteAt (writeRecord c7File c7Rec1).file c7Rec2.seekPos = 9 := by
    rw [writeRecord_frame c7File c7Rec1 _ hwin22]
    decide
  have hna2 : ¬ anchorOk (writeRecord c7File c7Rec1).file c7Rec2 := by
    intro hcontra
    have h := hcontra.1
    rw [hb22] at h
    rw [(by decide : be2 c7Rec2.clipId = [0, 2])] at h
    simp at h
  have h2 : writeRecord (writeRecord c7File c7Rec1).file c7Rec2 =
      ⟨false, (writeRecord c7File c7Rec1).file⟩ := by
    set f3 := (writeRecord c7File c7Rec1).file with hf3
    simp only [writeRecord]
    rw [if_neg hna2]
  have hg2 := mplWriteGo_cons_dirty_fail
    (f := (writeRecord c7File c7Rec1).file) (r := c7Rec2) []
    (by decide) (by rw [h2])
  have hg1 := mplWriteGo_cons_dirty_ok
    (f := c7File) (r := c7Rec1) [c7Rec2] (by decide) (by rw [h1])
  have hw : mplWrite c7File [c7Rec1, c7Rec2] =
      ⟨false, (writeRecord c7File c7Rec1).file,
        clearDirty c7Rec1 :: [c7Rec2]⟩ := by
    unfold mplWrite
    rw [if_neg (by decide)]
    rw [hg1, hg2]
    simp [h2]
  refine ⟨by decide, ?_, ?_⟩
  · rw [hw]
  · rw [hw]
    simp [clearDirty]
    decide

/- ## TagReconciler (`FileStore.reload` and helpers in `main.py`)

Rows are modelled with the tag fields that the canonical-timestamp selection
and the timezone inference read.  Naive tag values (EXIF, IPTC) are a bare
wall clock in microseconds; offset-aware values (XMP, QuickTime, AVCHD,
mtime) are `Aware`.  `Exif.Image.TimeZoneOffset` is a whole number of hours,
as in the tag. -/

/-- Microseconds in one hour. -/
def microsPerHour : ℤ := 3600000000

/-- Row fields read by `get_timestamp`, `get_exif_aware_timestamp` and
`guess_timezone_offset`. -/
structure RRow where
  exifPhotoDTO : Option ℤ
  exifTZOffset : Option ℤ
  xmpCreateDate : Option Aware
  xmpDateCreated : Option Aware
  iptcDateCreated : Option ℤ
  iptcDigitization : Option ℤ
  avchd : Option Aware
  qtCreateDate : Option Aware
  mtime : Option Aware
  timestamp : Option Aware
deriving Repr, DecidableEq

/-- Python's `round` on an exact rational: round to the nearest integer,
ties to the even neighbour (banker's rounding). -/
def roundHalfEven (q : ℚ) : ℤ :=
  if q - ⌊q⌋ < 1 / 2 then ⌊q⌋
  else if 1 / 2 < q - ⌊q⌋ then ⌊q⌋ + 1
  else if 2 ∣ ⌊q⌋ then ⌊q⌋ else ⌊q⌋ + 1

/-- Shallow embedding of `guess_timezone_offset(row, tag_name)`: the
reference tag loop ranges over the one-element tuple `("Xmp.xmp.CreateDate",)`,
so the reference is that tag's value (0 if absent); the naive tag value is
reinterpreted as UTC, the difference to the reference is taken in hours, and
rounded with Python's `round`. -/
def guessTimezoneOffset (xmpRef : Option Aware) (naiveWall : ℤ) : ℤ :=
  match xmpRef with
  | none => 0
  | some refDt =>
    roundHalfEven (((naiveWall - refDt.instant : ℤ) : ℚ) / (microsPerHour : ℚ))

/-- Shallow embedding of `_Row.get_exif_aware_timestamp`: `none` when the
tag is absent; otherwise the naive value made aware with the whole-hour
`Exif.Image.TimeZoneOffset`.  The outer `Option` models the exceptions
Python raises when the timestamp is present: a `TypeError` when the offset
tag is `None` (`datetime.timedelta(hours=None)`), and a `ValueError` when
the offset is not strictly between -24 and 24 hours
(`datetime.timezone(...)` bounds). -/
def getExifAware (r : RRow) : Option (Option Aware) :=
  match r.exifPhotoDTO with
  | none => some none
  | some ts =>
    match r.exifTZOffset with
    | none => none
    | some oh =>
      if -24 < oh ∧ oh < 24 then some (some ⟨ts, microsPerHour * oh⟩) else none

/-- Shallow embedding of `get_timestamp(r)`: the first non-`None` candidate
among EXIF original-capture (offset-aware), AVCHD timestamp, QuickTime
creation date and filesystem mtime.  The outer `Option` propagates the
`TypeError` from `get_exif_aware_timestamp`. -/
def getTimestampR (r : RRow) : Option (Option Aware) :=
  match getExifAware r with
  | none => none
  | some e => some (e.orElse fun _ => (r.avchd.orElse fun _ =>
      (r.qtCreateDate.orElse fun _ => r.mtime)))

/- ## XMP raw-value fallback (`FileStore.reload`, XMP loop)

When `tag.value` raises an `XmpValueError`, the raw string is matched
against the regular expression
`(\d+)-(\d+)-(\d+)T(\d+):(\d+):(\d+\.?\d*)((?:[+-]\d+:\d+)?)` (a full
match); on a match with an empty offset group the string is rebuilt with the
default offset "+00:00" and reparsed; on no match the error is re-raised.
The matcher below is a direct executable transcription of that regular
expression over the characters of the raw value. -/

/-- Longest leading run of ASCII decimal digit characters plus remainder
(one `\d+` or `\d*` step of the pattern). -/
def spanDigits (s : List Char) : List Char × List Char :=
  s.span (fun c => 48 ≤ c.toNat && c.toNat ≤ 57)

/-- Decimal value of a digit-character run (re-parsing a matched group). -/
def digitsToNat (s : List Char) : ℕ :=
  s.foldl (fun a c => 10 * a + (c.toNat - 48)) 0

/-- Captured groups of the fallback regular expression: the six date-time
digit runs, the fractional-second digits (empty when absent), and the
optional UTC-offset group (sign, hour digits, minute digits). -/
structure XmpGroups where
  yearDigits : List Char
  monthDigits : List Char
  dayDigits : List Char
  hourDigits : List Char
  minuteDigits : List Char
  secDigits : List Char
  fracDigits : List Char
  off : Option (Bool × List Char × List Char)
deriving Repr, DecidableEq

/-- Full match of the fallback pattern against a raw XMP string. -/
def matchXmpRaw (s : List Char) : Option XmpGroups :=
  let (y, r1) := spanDigits s
  if y.isEmpty then none else
  match r1 with
  | '-' :: r2 =>
    let (mo, r3) := spanDigits r2
    if mo.isEmpty then none else
    match r3 with
    | '-' :: r4 =>
      let (d, r5) := spanDigits r4
      if d.isEmpty then none else
      match r5 with
      | 'T' :: r6 =>
        let (h, r7) := spanDigits r6
        if h.isEmpty then none else
        match r7 with
        | ':' :: r8 =>
          let (mi, r9) := spanDigits r8
          if mi.isEmpty then none else
          match r9 with
          | ':' :: r10 =>
            let (sec, r11) := spanDigits r10
            if sec.isEmpty then none else
            let fr :=
              match r11 with
              | '.' :: r12 => spanDigits r12
              | _ => ([], r11)
            match fr.2 with
            | [] =>
              some ⟨y, mo, d, h, mi, sec, fr.1, none⟩
            | c :: r13 =>
              if c = '+' || c = '-' then
                let (oh, r14) := spanDigits r13
                if oh.isEmpty then none else
                match r14 with
                | ':' :: r15 =>
                  let (om, r16) := spanDigits r15
                  if om.isEmpty || !r16.isEmpty then none
                  else some ⟨y, mo, d, h, mi, sec, fr.1, some (c = '+', oh, om)⟩
                | _ => none
              else none
          | _ => none
        | _ => none
      | _ => none
    | _ => none
  | _ => none

/-- Reparsed value of a matched raw string, as pyexiv2 sees the rebuilt
string `f"{y}-{mo}-{d}T{h}:{mi}:{float(sec):09.6f}{off}"`: the six numeric
fields, exact fractional seconds, and the UTC offset in minutes (0 for an
empty offset group, i.e. the default "+00:00"). -/
structure XmpValue where
  year : ℕ
  month : ℕ
  day : ℕ
  hour : ℕ
  minute : ℕ
  sec : ℚ
  offMinutes : ℤ
deriving Repr, DecidableEq

/-- Group values of a match, with the empty offset group defaulted to 0. -/
def xmpGroupsValue (g : XmpGroups) : XmpValue :=
  { year := digitsToNat g.yearDigits
    month := digitsToNat g.monthDigits
    day := digitsToNat g.dayDigits
    hour := digitsToNat g.hourDigits
    minute := digitsToNat g.minuteDigits
    sec := (digitsToNat g.secDigits : ℚ) +
      (digitsToNat g.fracDigits : ℚ) / 10 ^ g.fracDigits.length
    offMinutes :=
      match g.off with
      | none => 0
      | some (sign, oh, om) =>
        (if sign then 1 else -1) * (60 * (digitsToNat oh : ℤ) + digitsToNat om) }

/-- Fallback reparse of a raw XMP string: the reparsed value on a match
(offset defaulted when absent), `none` when the pattern does not match (the
`XmpValueError` is re-raised). -/
def xmpFallback (s : List Char) : Option XmpValue :=
  (matchXmpRaw s).map xmpGroupsValue

/-- Civil date to days since the Unix epoch (proleptic Gregorian), used to
embed a parsed calendar date-time as microseconds.  Used only as the value
injection for reparsed XMP strings. -/
def daysFromCivil (y m d : ℤ) : ℤ :=
  let y2 := if m ≤ 2 then y - 1 else y
  let era := (if 0 ≤ y2 then y2 else y2 - 399) / 400
  let yoe := y2 - era * 400
  let mp := (m + 9) % 12
  let doy := (153 * mp + 2) / 5 + d - 1
  let doe := yoe * 365 + yoe / 4 - yoe / 100 + doy
  era * 146097 + doe - 719468

/-- Aware microsecond value of a reparsed XMP date-time. -/
def xmpValueAware (v : XmpValue) : Aware :=
  { wall := daysFromCivil v.year v.month v.day * 86400000000
      + v.hour * 3600000000 + v.minute * 60000000 + ⌊v.sec * 1000000⌋
    off := 60000000 * v.offMinutes }

/- ## Per-file reload (`FileStore.reload` body, one row)

The inputs a single row's reload consumes: the mtime probe (which can raise
an `OSError`), whether the pyexiv2 metadata read succeeded (its exceptions
are swallowed in `get_exiv_metadata`, yielding `None`), the per-tag lookup
results, an AVCHD directory-index hit for `.MTS` files, and the QuickTime
probe output (only the creation date feeds the canonical selection; the
remaining probe tags are value assignments of the same shape and are
omitted).  The delta-column assignment (`row["delta"] =
app.current_timestamp_delta`), progress fractions and row colours do not
affect the reconciled tag values and are not modelled. -/

/-- Lookup result for one XMP tag: absent, a parsed offset-aware value, or a
raw string whose `tag.value` raised `XmpValueError`. -/
inductive XmpIn
  | absent
  | parsed (v : Aware)
  | raw (s : List Char)
deriving Repr, DecidableEq

/-- Inputs consumed when reloading one file's row. -/
structure ReloadIn where
  mtime : Except Unit ℤ
  metadataOk : Bool
  xmpCreateDate : XmpIn
  xmpDateCreated : XmpIn
  exifPhotoDTO : Option ℤ
  exifTZOffset : Option ℤ
  iptcDateCreatedDate : Option ℤ
  iptcDateCreatedTime : Option ℤ
  iptcDigitizationDate : Option ℤ
  iptcDigitizationTime : Option ℤ
  avchdLookup : Option (ℤ × Option ℤ)
  qtCreateDate : Option ℤ
deriving Repr

/-- One XMP tag read during reload: the raw-string fallback path re-raises
when the pattern does not match, aborting the surrounding pass. -/
def readXmpTag (x : XmpIn) : Except Unit (Option Aware) :=
  match x with
  | .absent => Except.ok none
  | .parsed v => Except.ok (some v)
  | .raw s =>
    match xmpFallback s with
    | some v => Except.ok (some (xmpValueAware v))
    | none => Except.error ()

/-- IPTC split date/time pair combination
(`datetime.combine(date_tag.value[0], time_tag.value[0])`), applied only
when both tags are present. -/
def combineIptc (d t : Option ℤ) : Option ℤ :=
  match d, t with
  | some dv, some tv => some (dv + tv)
  | _, _ => none

/-- Metadata-loading stage of the row loop: with a readable metadata store
fill the XMP (with raw-value fallback), EXIF and combined IPTC tags; with an
unreadable one set every exiv-backed tag to `None`. -/
def reloadTags (inp : ReloadIn) (mt : Aware) : Except Unit RRow :=
  if inp.metadataOk then do
    let xcd ← readXmpTag inp.xmpCreateDate
    let xdc ← readXmpTag inp.xmpDateCreated
    Except.ok ({
      exifPhotoDTO := inp.exifPhotoDTO, exifTZOffset := inp.exifTZOffset,
      xmpCreateDate := xcd, xmpDateCreated := xdc,
      iptcDateCreated := combineIptc inp.iptcDateCreatedDate inp.iptcDateCreatedTime,
      iptcDigitization := combineIptc inp.iptcDigitizationDate inp.iptcDigitizationTime,
      avchd := none, qtCreateDate := none, mtime := some mt,
      timestamp := none } : RRow)
  else
    Except.ok ({
      exifPhotoDTO := none, exifTZOffset := none,
      xmpCreateDate := none, xmpDateCreated := none, iptcDateCreated := none,
      iptcDigitization := none, avchd := none, qtCreateDate := none,
      mtime := some mt, timestamp := none } : RRow)

/-- Timezone-inference stage (`reload` lines around the
`Exif.Image.TimeZoneOffset` guess): when the EXIF original-capture tag is
present but its offset tag is absent, store the inferred offset. -/
def reloadInferTz (row : RRow) : RRow :=
  match row.exifPhotoDTO, row.exifTZOffset with
  | some dto, none =>
    { row with exifTZOffset := some (guessTimezoneOffset row.xmpCreateDate dto) }
  | _, _ => row

/-- Fallback-source stage (`try_other_tag_sources`): consulted only when the
EXIF original-capture tag is absent; an AVCHD index hit fills the AVCHD tag
(inferring a timezone when the record is naive), otherwise the QuickTime
probe results are stored (naive, assumed UTC). -/
def reloadFallback (inp : ReloadIn) (row : RRow) : Except Unit RRow :=
  match row.exifPhotoDTO with
  | some _ => Except.ok row
  | none =>
    match inp.avchdLookup with
    | some (w, some o) => Except.ok { row with avchd := some ⟨w, o⟩ }
    | some (w, none) =>
      if -24 < guessTimezoneOffset row.xmpCreateDate w ∧
          guessTimezoneOffset row.xmpCreateDate w < 24 then
        Except.ok { row with avchd := some ⟨w, microsPerHour * guessTimezoneOffset row.xmpCreateDate w⟩ }
      else Except.error ()
    | none =>
      Except.ok { row with qtCreateDate := inp.qtCreateDate.map (fun t => ⟨t, 0⟩) }

/-- Canonical-selection stage (`row["timestamp"] = get_timestamp(row)`). -/
def reloadSelect (row : RRow) : Except Unit RRow :=
  match getTimestampR row with
  | none => Except.error ()
  | some t => Except.ok { row with timestamp := t }

/-- Shallow embedding of one iteration of the row loop in
`FileStore.reload`: read mtime (an `OSError` aborts the pass), load the
exiv-backed tags (or all-`None` when the metadata read failed), infer the
EXIF timezone offset when the original-capture tag is present without its
offset tag, consult the AVCHD index or the QuickTime probe when the EXIF
original-capture tag is absent, then select the canonical timestamp.
`defOff` is `DEFAULT_TIMEZONE_OFFSET` in microseconds. -/
def reloadRow (defOff : ℤ) (inp : ReloadIn) : Except Unit RRow :=
  match inp.mtime with
  | .error _ => Except.error ()
  | .ok t =>
    match reloadTags inp ⟨t + defOff, defOff⟩ with
    | .error e => Except.error e
    | .ok row =>
      match reloadFallback inp (reloadInferTz row) with
      | .error e => Except.error e
      | .ok row => reloadSelect row

/-- A reload batch pass over a list of files: rows are processed in order;
an uncaught exception ends the pass, keeping the rows processed so far.  The
boolean records whether the pass ran to completion. -/
def reloadPass (defOff : ℤ) : List ReloadIn → List RRow × Bool
  | [] => ([], true)
  | f :: rest =>
    match reloadRow defOff f with
    | .error _ => ([], false)
    | .ok r =>
      let tail := reloadPass defOff rest
      (r :: tail.1, tail.2)

/- ## Per-file write-back (`FileStore.write_back` body, one row)

The write pass converts every populated timestamp tag, writes it back in its
native representation, updates the EXIF offset tag when previously present,
routes QuickTime tags through the external `exiftool` writer and AVCHD
timestamps through the directory index, and finally sets the file's
modification (and access) time to the corrected canonical timestamp. -/

/-- Rounding of `round_datetime_to_second`: microseconds at or above half a
second round the wall clock up to the next second, below half a second they
are dropped. -/
def roundToSecond (wall : ℤ) : ℤ :=
  if 500000 ≤ wall % 1000000 then wall - wall % 1000000 + 1000000
  else wall - wall % 1000000

/-- Truncation performed by `strftime("%Y:%m:%d %H:%M:%S")`: sub-second
microseconds are simply omitted from the rendered string. -/
def floorToSecond (wall : ℤ) : ℤ := wall - wall % 1000000

/-- Value written back for an exiv-backed tag:
`round_datetime_to_second(ts.astimezone(timezone) + ts_delta)` — the aware
value is converted to the target timezone, the delta is added, and the wall
clock is rounded to the whole second. -/
def exivWriteValue (tz delta : ℤ) (a : Aware) : Aware :=
  ⟨roundToSecond (a.instant + tz + delta), tz⟩

/-- Value written for a QuickTime tag by `format_arg`:
`(row[t].astimezone(timezone.utc) + ts_delta).strftime("%Y:%m:%d %H:%M:%S")`
— converted to UTC, delta added, truncated to the second by the rendering;
the written string carries no offset, so the result is a naive UTC wall
clock. -/
def qtWriteValue (delta : ℤ) (a : Aware) : ℤ :=
  floorToSecond (a.instant + delta)

/-- Row fields consumed by one `write_back` iteration. -/
structure WbRow where
  timestamp : Option Aware
  delta : ℤ
  metadataOk : Bool
  xmpCreateDate : Option Aware
  xmpDateCreated : Option Aware
  iptcDateCreated : Option ℤ
  iptcDigitization : Option ℤ
  exifImageDateTime : Option ℤ
  exifPhotoDTO : Option ℤ
  exifPhotoDTDigitized : Option ℤ
  exifImageDTO : Option ℤ
  exifImagePreviewDT : Option ℤ
  exifTZOffset : Option ℤ
  qtCreateDate : Option Aware
  qtModifyDate : Option Aware
  qtTrackCreateDate : Option Aware
  qtTrackModifyDate : Option Aware
  qtMediaCreateDate : Option Aware
  qtMediaModifyDate : Option Aware
  avchd : Option Aware
  underAvchdRoot : Bool
deriving Repr

/-- Tag values written by one `write_back` iteration (a `none` means the tag
was not written).  IPTC pairs are written as two tags holding the same
rounded value; QuickTime tags are naive UTC wall clocks; `mtimeSet` is the
instant passed to `os.utime`. -/
structure WbWritten where
  xmpCreateDate : Option Aware
  xmpDateCreated : Option Aware
  iptcDateCreatedDate : Option Aware
  iptcDateCreatedTime : Option Aware
  iptcDigitizationDate : Option Aware
  iptcDigitizationTime : Option Aware
  exifImageDateTime : Option Aware
  exifPhotoDTO : Option Aware
  exifPhotoDTDigitized : Option Aware
  exifImageDTO : Option Aware
  exifImagePreviewDT : Option Aware
  exifTZOffset : Option ℤ
  qtCreateDate : Option ℤ
  qtModifyDate : Option ℤ
  qtTrackCreateDate : Option ℤ
  qtTrackModifyDate : Option ℤ
  qtMediaCreateDate : Option ℤ
  qtMediaModifyDate : Option ℤ
  avchd : Option Aware
  mtimeSet : ℤ
deriving Repr

/-- EXIF aware value as produced by `get_exif_aware_timestamp` inside
`iter_exiv_timestamps` during write-back; as in reload, a present timestamp
with a missing or out-of-range offset tag raises. -/
def exifAwareWb (off : Option ℤ) (v : Option ℤ) : Except Unit (Option Aware) :=
  match v with
  | none => Except.ok none
  | some ts =>
    match off with
    | none => Except.error ()
    | some oh =>
      if -24 < oh ∧ oh < 24 then Except.ok (some ⟨ts, microsPerHour * oh⟩)
      else Except.error ()

/-- A QuickTime tag value demanded by `format_arg`; a `None` tag raises
(`None.astimezone`), because `format_arg` is applied to every QuickTime tag
once any of them is populated. -/
def qtDemand (delta : ℤ) (a : Option Aware) : Except Unit ℤ :=
  match a with
  | none => Except.error ()
  | some v => Except.ok (qtWriteValue delta v)

/-- EXIF leg of `iter_exiv_timestamps` during write-back: the five EXIF
timestamp tags made aware with the shared offset tag, or nothing when the
metadata store is unreadable. -/
def wbExifGroup (r : WbRow) :
    Except Unit (Option (Option Aware × Option Aware × Option Aware × Option Aware × Option Aware)) :=
  if r.metadataOk then do
    let e1 ← exifAwareWb r.exifTZOffset r.exifImageDateTime
    let e2 ← exifAwareWb r.exifTZOffset r.exifPhotoDTO
    let e3 ← exifAwareWb r.exifTZOffset r.exifPhotoDTDigitized
    let e4 ← exifAwareWb r.exifTZOffset r.exifImageDTO
    let e5 ← exifAwareWb r.exifTZOffset r.exifImagePreviewDT
    Except.ok (some (e1, e2, e3, e4, e5))
  else Except.ok none

/-- QuickTime leg of `write_back`: when at least one QuickTime tag is
populated, `format_arg` demands every one of the six tags. -/
def wbQtGroup (r : WbRow) : Except Unit (Option (ℤ × ℤ × ℤ × ℤ × ℤ × ℤ)) :=
  if r.qtCreateDate.isSome || r.qtModifyDate.isSome ||
      r.qtTrackCreateDate.isSome || r.qtTrackModifyDate.isSome ||
      r.qtMediaCreateDate.isSome || r.qtMediaModifyDate.isSome then do
    let q1 ← qtDemand r.delta r.qtCreateDate
    let q2 ← qtDemand r.delta r.qtModifyDate
    let q3 ← qtDemand r.delta r.qtTrackCreateDate
    let q4 ← qtDemand r.delta r.qtTrackModifyDate
    let q5 ← qtDemand r.delta r.qtMediaCreateDate
    let q6 ← qtDemand r.delta r.qtMediaModifyDate
    Except.ok (some (q1, q2, q3, q4, q5, q6))
  else Except.ok none

/-- Shallow embedding of one iteration of the row loop in
`FileStore.write_back`.  `tzHours` is the rounded whole-hour target timezone
(`timezone_offset_hours`), `localOff` the system-local offset assumed by
`astimezone` on the naive IPTC values, both in the units stated. -/
def writeBackFile (tzHours localOff : ℤ) (r : WbRow) : Except Unit WbWritten :=
  match r.timestamp with
  | none => Except.error ()
  | some ts0 =>
  match wbExifGroup r with
  | .error e => Except.error e
  | .ok ex =>
  match wbQtGroup r with
  | .error e => Except.error e
  | .ok qt =>
  let tz := microsPerHour * tzHours
  let tsNew := ts0.instant + r.delta
  Except.ok {
    xmpCreateDate := if r.metadataOk then r.xmpCreateDate.map (exivWriteValue tz r.delta) else none
    xmpDateCreated := if r.metadataOk then r.xmpDateCreated.map (exivWriteValue tz r.delta) else none
    iptcDateCreatedDate := if r.metadataOk then
      r.iptcDateCreated.map (fun n => exivWriteValue tz r.delta ⟨n, localOff⟩) else none
    iptcDateCreatedTime := if r.metadataOk then
      r.iptcDateCreated.map (fun n => exivWriteValue tz r.delta ⟨n, localOff⟩) else none
    iptcDigitizationDate := if r.metadataOk then
      r.iptcDigitization.map (fun n => exivWriteValue tz r.delta ⟨n, localOff⟩) else none
    iptcDigitizationTime := if r.metadataOk then
      r.iptcDigitization.map (fun n => exivWriteValue tz r.delta ⟨n, localOff⟩) else none
    exifImageDateTime := (ex.bind (fun e => e.1)).map (exivWriteValue tz r.delta)
    exifPhotoDTO := (ex.bind (fun e => e.2.1)).map (exivWriteValue tz r.delta)
    exifPhotoDTDigitized := (ex.bind (fun e => e.2.2.1)).map (exivWriteValue tz r.delta)
    exifImageDTO := (ex.bind (fun e => e.2.2.2.1)).map (exivWriteValue tz r.delta)
    exifImagePreviewDT := (ex.bind (fun e => e.2.2.2.2)).map (exivWriteValue tz r.delta)
    exifTZOffset := if r.metadataOk && r.exifTZOffset.isSome then some tzHours else none
    qtCreateDate := qt.map (fun q => q.1)
    qtModifyDate := qt.map (fun q => q.2.1)
    qtTrackCreateDate := qt.map (fun q => q.2.2.1)
    qtTrackModifyDate := qt.map (fun q => q.2.2.2.1)
    qtMediaCreateDate := qt.map (fun q => q.2.2.2.2.1)
    qtMediaModifyDate := qt.map (fun q => q.2.2.2.2.2)
    avchd := match r.avchd with
      | none => none
      | some a => if r.underAvchdRoot then some (exivWriteValue tz r.delta a) else none
    mtimeSet := tsNew }

/-- A write-back batch pass: rows are processed in order; an uncaught
exception ends the pass, keeping the per-file results produced so far. -/
def writeBackPass (tzHours localOff : ℤ) : List WbRow → List WbWritten × Bool
  | [] => ([], true)
  | r :: rest =>
    match writeBackFile tzHours localOff r with
    | .error _ => ([], false)
    | .ok w =>
      let tail := writeBackPass tzHours localOff rest
      (w :: tail.1, tail.2)

lemma roundHalfEven_near (q : ℚ) : |q - roundHalfEven q| ≤ 1 / 2 := by
  have h0 : (⌊q⌋ : ℚ) ≤ q := Int.floor_le q
  have h1 : q < ⌊q⌋ + 1 := Int.lt_floor_add_one q
  unfold roundHalfEven
  by_cases hc1 : q - ⌊q⌋ < 1 / 2
  · rw [if_pos hc1, abs_le]
    constructor <;> linarith
  · rw [if_neg hc1]
    by_cases hc2 : 1 / 2 < q - ⌊q⌋
    · rw [if_pos hc2]
      push_cast
      rw [abs_le]
      constructor <;> linarith
    · rw [if_neg hc2]
      have heq : q - ⌊q⌋ = 1 / 2 := le_antisymm (not_lt.mp hc2) (not_lt.mp hc1)
      by_cases hc3 : 2 ∣ ⌊q⌋
      · rw [if_pos hc3, abs_le]
        constructor <;> linarith
      · rw [if_neg hc3]
        push_cast
        rw [abs_le]
        constructor <;> linarith

/-- C4: timezone inference.  (1) With no XMP reference the inferred offset
is 0.  (2) With an XMP reference the inferred whole-hour offset is a nearest
whole hour to the signed difference between the naive EXIF value read as UTC
and the reference instant: the difference between them and the inferred
offset is at most half an hour.  (3) During reload, a row with the EXIF
original-capture tag present and the offset tag absent gets exactly the
inferred offset stored into the offset tag. -/
theorem c4_timezone_inference :
    (∀ naive : ℤ, guessTimezoneOffset none naive = 0)
    ∧ (∀ (a : Aware) (naive : ℤ),
        |((naive - a.instant : ℤ) : ℚ) -
            (microsPerHour : ℚ) * guessTimezoneOffset (some a) naive| ≤
          (microsPerHour : ℚ) / 2)
    ∧ (∀ (row : RRow) (dto : ℤ), row.exifPhotoDTO = some dto →
        row.exifTZOffset = none →
        (reloadInferTz row).exifTZOffset =
          some (guessTimezoneOffset row.xmpCreateDate dto)) := by
  refine ⟨fun naive => rfl, ?_, ?_⟩
  · intro a naive
    set q : ℚ := ((naive - a.instant : ℤ) : ℚ) / (microsPerHour : ℚ) with hq
    have hmu : (0 : ℚ) < (microsPerHour : ℚ) := by norm_num [microsPerHour]
    have hnear := roundHalfEven_near q
    have hval : ((naive - a.instant : ℤ) : ℚ) = q * (microsPerHour : ℚ) := by
      rw [hq]
      field_simp
    have : |q - roundHalfEven q| * (microsPerHour : ℚ) ≤ 1 / 2 * (microsPerHour : ℚ) :=
      mul_le_mul_of_nonneg_right hnear (le_of_lt hmu)
    calc |((naive - a.instant : ℤ) : ℚ) -
            (microsPerHour : ℚ) * guessTimezoneOffset (some a) naive|
        = |q * (microsPerHour : ℚ) - (microsPerHour : ℚ) * (roundHalfEven q : ℚ)| := by
          rw [hval]; rfl
      _ = |q - roundHalfEven q| * |(microsPerHour : ℚ)| := by
          rw [← abs_mul]; ring_nf
      _ = |q - roundHalfEven q| * (microsPerHour : ℚ) := by
          rw [abs_of_pos hmu]
      _ ≤ 1 / 2 * (microsPerHour : ℚ) := this
      _ = (microsPerHour : ℚ) / 2 := by ring
  · intro row dto h1 h2
    unfold reloadInferTz
    rw [h1, h2]

/-- Row for the C4 witness: EXIF naive original-capture at 10:00:00 and XMP
reference at 09:00:00+00:00 of the same day (wall clocks in microseconds
from that day's midnight). -/
def c4Row : RRow :=
  { exifPhotoDTO := some 36000000000, exifTZOffset := none,
    xmpCreateDate := some ⟨32400000000, 0⟩, xmpDateCreated := none,
    iptcDateCreated := none, iptcDigitization := none, avchd := none,
    qtCreateDate := none, mtime := none, timestamp := none }

/-- Witness for C4 at the spec's example: EXIF naive original-capture
2020-06-01T10:00:00 (10h into the day, in microseconds) with XMP reference
2020-06-01T09:00:00+00:00 gives inferred offset +1 hour. -/
theorem c4_witness :
    (c4Row.exifPhotoDTO = some 36000000000 ∧ c4Row.exifTZOffset = none)
    ∧ (reloadInferTz c4Row).exifTZOffset = some 1 := by
  have h := c4_timezone_inference.2.2 c4Row 36000000000 rfl rfl
  refine ⟨⟨rfl, rfl⟩, ?_⟩
  rw [h]
  norm_num [guessTimezoneOffset, roundHalfEven, Aware.instant, microsPerHour, c4Row]

lemma except_ok_bind {α β γ : Type} (a : α) (f : α → Except γ β) :
    (Except.ok a >>= f : Except γ β) = f a := rfl

lemma except_error_bind {α β γ : Type} (e : γ) (f : α → Except γ β) :
    (Except.error e >>= f : Except γ β) = Except.error e := rfl

lemma getTimestampR_set_timestamp (row : RRow) (t : Option Aware) :
    getTimestampR { row with timestamp := t } = getTimestampR row := by
  cases row
  rfl

lemma reloadSelect_ok {row r : RRow} (h : reloadSelect row = Except.ok r) :
    getTimestampR r = some r.timestamp ∧ r.mtime = row.mtime := by
  unfold reloadSelect at h
  cases ht : getTimestampR row with
  | none => rw [ht] at h; cases h
  | some t =>
    rw [ht] at h
    injection h with h2
    subst h2
    refine ⟨?_, rfl⟩
    rw [getTimestampR_set_timestamp, ht]

lemma reloadTags_ok_mtime {inp : ReloadIn} {mt : Aware} {row : RRow}
    (h : reloadTags inp mt = Except.ok row) : row.mtime = some mt := by
  unfold reloadTags at h
  by_cases hm : inp.metadataOk
  · rw [if_pos hm] at h
    cases h1 : readXmpTag inp.xmpCreateDate with
    | error e => rw [h1] at h; cases h
    | ok a =>
      rw [h1] at h
      rw [except_ok_bind] at h
      cases h2 : readXmpTag inp.xmpDateCreated with
      | error e => rw [h2] at h; cases h
      | ok b =>
        rw [h2] at h
        rw [except_ok_bind] at h
        injection h with h3
        subst h3
        rfl
  · rw [if_neg hm] at h
    injection h with h3
    subst h3
    rfl

lemma reloadInferTz_mtime (row : RRow) : (reloadInferTz row).mtime = row.mtime := by
  unfold reloadInferTz
  split
  · rfl
  · rfl

lemma reloadInferTz_dto (row : RRow) :
    (reloadInferTz row).exifPhotoDTO = row.exifPhotoDTO := by
  unfold reloadInferTz
  split
  · rfl
  · rfl

lemma reloadFallback_ok {inp : ReloadIn} {row r : RRow}
    (h : reloadFallback inp row = Except.ok r) :
    r.mtime = row.mtime ∧ r.exifPhotoDTO = row.exifPhotoDTO
      ∧ r.exifTZOffset = row.exifTZOffset := by
  unfold reloadFallback at h
  split at h
  · injection h with h2
    subst h2
    exact ⟨rfl, rfl, rfl⟩
  · split at h
    · injection h with h2
      subst h2
      exact ⟨rfl, rfl, rfl⟩
    · split at h
      · injection h with h2
        subst h2
        exact ⟨rfl, rfl, rfl⟩
      · cases h
    · injection h with h2
      subst h2
      exact ⟨rfl, rfl, rfl⟩

lemma getTimestampR_some_isSome {row : RRow} {t : Option Aware}
    (h : getTimestampR row = some t) (hm : row.mtime.isSome) : t.isSome := by
  unfold getTimestampR at h
  cases hE : getExifAware row with
  | none => rw [hE] at h; cases h
  | some e =>
    rw [hE] at h
    injection h with h2
    subst h2
    cases e with
    | some v => rfl
    | none =>
      simp only [Option.orElse]
      cases row.avchd with
      | some a => rfl
      | none =>
        simp only [Option.orElse]
        cases row.qtCreateDate with
        | some q => rfl
        | none =>
          simp only [Option.orElse]
          exact hm

lemma reloadRow_ok_chain {defOff : ℤ} {inp : ReloadIn} {r : RRow}
    (h : reloadRow defOff inp = Except.ok r) :
    ∃ mt row1 row3,
      reloadTags inp mt = Except.ok row1 ∧
      reloadFallback inp (reloadInferTz row1) = Except.ok row3 ∧
      reloadSelect row3 = Except.ok r := by
  unfold reloadRow at h
  split at h
  · cases h
  · split at h
    · cases h
    · rename_i h1
      split at h
      · cases h
      · rename_i h2
        exact ⟨_, _, _, h1, h2, h⟩

/-- C10: a successfully reloaded row always carries a canonical timestamp.
The filesystem mtime is unconditionally stored (it is only absent when its
read failed, which aborts the row), it is the final fallback of the
selection chain, so the selected timestamp of every processed row is
non-null, and the write-back pass computation `ts_new` therefore always
starts from a non-null canonical timestamp. -/
theorem c10_reload_nonnull (defOff : ℤ) (inp : ReloadIn) (r : RRow)
    (h : reloadRow defOff inp = Except.ok r) :
    r.mtime.isSome ∧ getTimestampR r = some r.timestamp ∧ r.timestamp.isSome := by
  obtain ⟨mt, row1, row3, h1, h2, h3⟩ := reloadRow_ok_chain h
  obtain ⟨hsel, hmt⟩ := reloadSelect_ok h3
  have hmt3 : row3.mtime = some mt := by
    rw [(reloadFallback_ok h2).1, reloadInferTz_mtime, reloadTags_ok_mtime h1]
  have hrm : r.mtime = some mt := by rw [hmt, hmt3]
  have hsome : r.mtime.isSome := by rw [hrm]; rfl
  exact ⟨hsome, hsel, getTimestampR_some_isSome hsel hsome⟩

/-- C3: canonical timestamp selection.  In a row: (1) when the EXIF
original-capture tag is present together with an in-range whole-hour offset
tag, the selection returns exactly that offset-aware value, regardless of
every other tag; (2) otherwise the AVCHD clip timestamp wins when present;
(3) then the QuickTime creation date; (4) then the filesystem mtime; and
(5) a successfully reloaded row's stored canonical timestamp is exactly the
value of this selection on the reconciled row. -/
theorem c3_canonical_selection (r : RRow) :
    (∀ (ts oh : ℤ), r.exifPhotoDTO = some ts → r.exifTZOffset = some oh →
      -24 < oh → oh < 24 →
      getTimestampR r = some (some ⟨ts, microsPerHour * oh⟩))
    ∧ (r.exifPhotoDTO = none → ∀ a, r.avchd = some a →
        getTimestampR r = some (some a))
    ∧ (r.exifPhotoDTO = none → r.avchd = none → ∀ q, r.qtCreateDate = some q →
        getTimestampR r = some (some q))
    ∧ (r.exifPhotoDTO = none → r.avchd = none → r.qtCreateDate = none →
        getTimestampR r = some r.mtime)
    ∧ (∀ (defOff : ℤ) (inp : ReloadIn), reloadRow defOff inp = Except.ok r →
        getTimestampR r = some r.timestamp) := by
  refine ⟨?_, ?_, ?_, ?_, ?_⟩
  · intro ts oh h1 h2 h3 h4
    unfold getTimestampR getExifAware
    rw [h1, h2]
    simp [h3, h4, Option.orElse]
  · intro h1 a h2
    unfold getTimestampR getExifAware
    rw [h1, h2]
    rfl
  · intro h1 h2 q h3
    unfold getTimestampR getExifAware
    rw [h1, h2, h3]
    rfl
  · intro h1 h2 h3
    unfold getTimestampR getExifAware
    rw [h1, h2, h3]
    rfl
  · intro defOff inp h
    obtain ⟨mt, row1, row3, h1, h2, h3⟩ := reloadRow_ok_chain h
    exact (reloadSelect_ok h3).1

/-- Row for the C3 witness: EXIF original-capture present with offset +2,
and deliberately different AVCHD, QuickTime and mtime values. -/
def c3Row : RRow :=
  { exifPhotoDTO := some 5, exifTZOffset := some 2,
    xmpCreateDate := none, xmpDateCreated := none, iptcDateCreated := none,
    iptcDigitization := none, avchd := some ⟨11, 1⟩, qtCreateDate := some ⟨22, 2⟩,
    mtime := some ⟨33, 3⟩, timestamp := none }

/-- Witness for C3: on `c3Row` the selection returns the offset-aware EXIF
value, ignoring the populated AVCHD, QuickTime and mtime tags. -/
theorem c3_witness :
    c3Row.exifPhotoDTO = some 5 ∧ c3Row.exifTZOffset = some 2 ∧
    getTimestampR c3Row = some (some ⟨5, microsPerHour * 2⟩) :=
  ⟨rfl, rfl, (c3_canonical_selection c3Row).1 5 2 rfl rfl (by norm_num) (by norm_num)⟩

/-- Input for the C10 witness: a file whose metadata store is unreadable and
that matches no fallback source, so only the mtime feeds the selection. -/
def c10Inp : ReloadIn :=
  { mtime := Except.ok 0, metadataOk := false, xmpCreateDate := XmpIn.absent,
    xmpDateCreated := XmpIn.absent, exifPhotoDTO := none, exifTZOffset := none,
    iptcDateCreatedDate := none, iptcDateCreatedTime := none,
    iptcDigitizationDate := none, iptcDigitizationTime := none,
    avchdLookup := none, qtCreateDate := none }

/-- Row produced by reloading `c10Inp`. -/
def c10Row : RRow :=
  { exifPhotoDTO := none, exifTZOffset := none, xmpCreateDate := none,
    xmpDateCreated := none, iptcDateCreated := none, iptcDigitization := none,
    avchd := none, qtCreateDate := none, mtime := some ⟨0, 0⟩,
    timestamp := some ⟨0, 0⟩ }

/-- Witness for C10: reloading `c10Inp` succeeds and the resulting row has a
non-null mtime and canonical timestamp. -/
theorem c10_witness :
    reloadRow 0 c10Inp = Except.ok c10Row
    ∧ c10Row.mtime.isSome ∧ c10Row.timestamp.isSome := by
  have h : reloadRow 0 c10Inp = Except.ok c10Row := rfl
  have h2 := c10_reload_nonnull 0 c10Inp c10Row h
  exact ⟨h, h2.1, h2.2.2⟩

/-- Raw XMP string for the C8 counterexample, matching no timestamp shape. -/
def c8BadChars : List Char := ['g', 'a', 'r', 'b', 'a', 'g', 'e']

/-- Reload input whose XMP creation-date tag raises `XmpValueError` with an
unparseable raw value. -/
def c8BadInp : ReloadIn :=
  { mtime := Except.ok 0, metadataOk := true,
    xmpCreateDate := XmpIn.raw c8BadChars, xmpDateCreated := XmpIn.absent,
    exifPhotoDTO := none, exifTZOffset := none,
    iptcDateCreatedDate := none, iptcDateCreatedTime := none,
    iptcDigitizationDate := none, iptcDigitizationTime := none,
    avchdLookup := none, qtCreateDate := none }

/-- Counterexample to C8 as stated: a malformed raw XMP string that does not
match the fallback pattern re-raises, and reloading the file aborts with an
error instead of skipping the tag and continuing with the file's remaining
tags. -/
theorem c8_counterexample :
    xmpFallback c8BadChars = none ∧ reloadRow 0 c8BadInp = Except.error () :=
  ⟨rfl, rfl⟩

/-- Amended C8: a raw string matching the timestamp pattern with an empty
offset group is reparsed with the default offset +00:00 (offset 0); a raw
string not matching the pattern is not skipped — the parse error is
re-raised and aborts the surrounding reload pass at that file. -/
theorem c8_amended_xmp_fallback :
    (∀ (s : List Char) (g : XmpGroups), matchXmpRaw s = some g → g.off = none →
        xmpFallback s = some (xmpGroupsValue g) ∧ (xmpGroupsValue g).offMinutes = 0)
    ∧ (∀ s : List Char, matchXmpRaw s = none → xmpFallback s = none)
    ∧ (∀ (s : List Char) (defOff : ℤ) (inp : ReloadIn),
        inp.metadataOk = true → inp.xmpCreateDate = XmpIn.raw s →
        matchXmpRaw s = none → reloadRow defOff inp = Except.error ()) := by
  refine ⟨?_, ?_, ?_⟩
  · intro s g hm hoff
    constructor
    · unfold xmpFallback
      rw [hm]
      rfl
    · simp [xmpGroupsValue, hoff]
  · intro s hm
    unfold xmpFallback
    rw [hm]
    rfl
  · intro s defOff inp hmeta hxmp hm
    have hfall : xmpFallback s = none := by
      unfold xmpFallback
      rw [hm]
      rfl
    have hread : readXmpTag (XmpIn.raw s) = Except.error () := by
      show (match xmpFallback s with
        | some v => Except.ok (some (xmpValueAware v))
        | none => Except.error ()) = Except.error ()
      rw [hfall]
    have htags : ∀ mt, reloadTags inp mt = Except.error () := by
      intro mt
      unfold reloadTags
      rw [hmeta, hxmp, hread]
      rfl
    unfold reloadRow
    cases hmt : inp.mtime with
    | error e => rfl
    | ok t =>
      show (match reloadTags inp ⟨t + defOff, defOff⟩ with
        | Except.error e => Except.error e
        | Except.ok row =>
          match reloadFallback inp (reloadInferTz row) with
          | Except.error e => Except.error e
          | Except.ok row => reloadSelect row) = Except.error ()
      rw [htags ⟨t + defOff, defOff⟩]

/-- Raw XMP string for the C8 witness: well-formed except for the missing
UTC-offset suffix. -/
def c8GoodChars : List Char :=
  ['2', '0', '2', '0', '-', '1', '-', '2', 'T', '3', ':', '4', ':', '5']

/-- Groups matched on `c8GoodChars` (empty offset group). -/
def c8Groups : XmpGroups :=
  { yearDigits := ['2', '0', '2', '0'], monthDigits := ['1'], dayDigits := ['2'],
    hourDigits := ['3'], minuteDigits := ['4'], secDigits := ['5'],
    fracDigits := [], off := none }

/-- Witness for the amended C8: the offsetless well-formed string is
reparsed with offset 0. -/
theorem c8_amended_witness :
    matchXmpRaw c8GoodChars = some c8Groups ∧ c8Groups.off = none ∧
    xmpFallback c8GoodChars = some (xmpGroupsValue c8Groups) ∧
    (xmpGroupsValue c8Groups).offMinutes = 0 := by
  have hm : matchXmpRaw c8GoodChars = some c8Groups := rfl
  have h := c8_amended_xmp_fallback.1 c8GoodChars c8Groups hm rfl
  exact ⟨hm, rfl, h.1, h.2⟩

/-- Reload input whose mtime read raises an `OSError`. -/
def c9Bad : ReloadIn :=
  { mtime := Except.error (), metadataOk := false,
    xmpCreateDate := XmpIn.absent, xmpDateCreated := XmpIn.absent,
    exifPhotoDTO := none, exifTZOffset := none,
    iptcDateCreatedDate := none, iptcDateCreatedTime := none,
    iptcDigitizationDate := none, iptcDigitizationTime := none,
    avchdLookup := none, qtCreateDate := none }

/-- Perfectly processable reload input following `c9Bad` in the batch. -/
def c9Good : ReloadIn :=
  { mtime := Except.ok 7, metadataOk := false,
    xmpCreateDate := XmpIn.absent, xmpDateCreated := XmpIn.absent,
    exifPhotoDTO := none, exifTZOffset := none,
    iptcDateCreatedDate := none, iptcDateCreatedTime := none,
    iptcDigitizationDate := none, iptcDigitizationTime := none,
    avchdLookup := none, qtCreateDate := none }

/-- Row produced by reloading `c9Good` on its own. -/
def c9GoodRow : RRow :=
  { exifPhotoDTO := none, exifTZOffset := none, xmpCreateDate := none,
    xmpDateCreated := none, iptcDateCreated := none, iptcDigitization := none,
    avchd := none, qtCreateDate := none, mtime := some ⟨7, 0⟩,
    timestamp := some ⟨7, 0⟩ }

/-- Counterexample to C9 as stated: the second file of the batch is
perfectly processable on its own, but the pass halts at the first file's
mtime I/O failure and the second file is never processed. -/
theorem c9_counterexample :
    reloadRow 0 c9Bad = Except.error ()
    ∧ reloadRow 0 c9Good = Except.ok c9GoodRow
    ∧ reloadPass 0 [c9Bad, c9Good] = ([], false) :=
  ⟨rfl, rfl, rfl⟩

/-- Row holding only a stored mtime, as produced by `reloadTags` when the
metadata store is unreadable. -/
def cleanRow (mt : Aware) : RRow :=
  { exifPhotoDTO := none, exifTZOffset := none, xmpCreateDate := none,
    xmpDateCreated := none, iptcDateCreated := none, iptcDigitization := none,
    avchd := none, qtCreateDate := none, mtime := some mt, timestamp := none }

/-- Amended C9: failure isolation is not per file.  (1) The one per-file
tolerance the code has: an unreadable metadata store still yields a
successfully processed row (every exiv tag `None`).  (2) Any uncaught
per-file exception in a reload pass halts the whole pass at that file:
files before it are processed, the failing file and every following file
are not.  (3) The same holds for a write-back pass. -/
theorem c9_amended_batch_isolation :
    (∀ (defOff : ℤ) (inp : ReloadIn) (t : ℤ), inp.mtime = Except.ok t →
        inp.metadataOk = false → inp.avchdLookup = none →
        ∃ r, reloadRow defOff inp = Except.ok r)
    ∧ (∀ (defOff : ℤ) (pre post : List ReloadIn) (bad : ReloadIn),
        (∀ f ∈ pre, ∃ r, reloadRow defOff f = Except.ok r) →
        reloadRow defOff bad = Except.error () →
        (reloadPass defOff (pre ++ bad :: post)).2 = false ∧
          (reloadPass defOff (pre ++ bad :: post)).1.length = pre.length)
    ∧ (∀ (tzHours localOff : ℤ) (pre post : List WbRow) (bad : WbRow),
        (∀ f ∈ pre, ∃ w, writeBackFile tzHours localOff f = Except.ok w) →
        writeBackFile tzHours localOff bad = Except.error () →
        (writeBackPass tzHours localOff (pre ++ bad :: post)).2 = false ∧
          (writeBackPass tzHours localOff (pre ++ bad :: post)).1.length = pre.length) := by
  refine ⟨?_, ?_, ?_⟩
  · intro defOff inp t hmt hmeta hav
    have htags : reloadTags inp ⟨t + defOff, defOff⟩ =
        Except.ok (cleanRow ⟨t + defOff, defOff⟩) := by
      unfold reloadTags
      rw [hmeta]
      rfl
    have hinfer : reloadInferTz (cleanRow ⟨t + defOff, defOff⟩) =
        cleanRow ⟨t + defOff, defOff⟩ := rfl
    have hfb : reloadFallback inp (cleanRow ⟨t + defOff, defOff⟩) =
        Except.ok { cleanRow ⟨t + defOff, defOff⟩ with
          qtCreateDate := inp.qtCreateDate.map (fun x => (⟨x, 0⟩ : Aware)) } := by
      unfold reloadFallback
      rw [hav]
      rfl
    cases hq : inp.qtCreateDate with
    | none =>
      refine ⟨{ cleanRow ⟨t + defOff, defOff⟩ with
        timestamp := some ⟨t + defOff, defOff⟩ }, ?_⟩
      unfold reloadRow
      rw [hmt]
      show (match reloadTags inp ⟨t + defOff, defOff⟩ with
        | Except.error e => Except.error e
        | Except.ok row =>
          match reloadFallback inp (reloadInferTz row) with
          | Except.error e => Except.error e
          | Except.ok row => reloadSelect row) = _
      rw [htags]
      show (match reloadFallback inp (reloadInferTz (cleanRow ⟨t + defOff, defOff⟩)) with
        | Except.error e => Except.error e
        | Except.ok row => reloadSelect row) = _
      rw [hinfer, hfb, hq]
      rfl
    | some q =>
      refine ⟨{ cleanRow ⟨t + defOff, defOff⟩ with
        qtCreateDate := some ⟨q, 0⟩, timestamp := some ⟨q, 0⟩ }, ?_⟩
      unfold reloadRow
      rw [hmt]
      show (match reloadTags inp ⟨t + defOff, defOff⟩ with
        | Except.error e => Except.error e
        | Except.ok row =>
          match reloadFallback inp (reloadInferTz row) with
          | Except.error e => Except.error e
          | Except.ok row => reloadSelect row) = _
      rw [htags]
      show (match reloadFallback inp (reloadInferTz (cleanRow ⟨t + defOff, defOff⟩)) with
        | Except.error e => Except.error e
        | Except.ok row => reloadSelect row) = _
      rw [hinfer, hfb, hq]
      rfl
  · intro defOff pre post bad
    induction pre with
    | nil =>
      intro hpre hbad
      simp only [List.nil_append]
      unfold reloadPass
      rw [hbad]
      exact ⟨rfl, rfl⟩
    | cons f rest ih =>
      intro hpre hbad
      obtain ⟨r, hf⟩ := hpre f (by simp)
      have ihh := ih (fun g hg => hpre g (by simp [hg])) hbad
      simp only [List.cons_append]
      constructor
      · show (reloadPass defOff (f :: (rest ++ bad :: post))).2 = false
        unfold reloadPass
        rw [hf]
        exact ihh.1
      · show (reloadPass defOff (f :: (rest ++ bad :: post))).1.length = (f :: rest).length
        unfold reloadPass
        rw [hf]
        simp only [List.length_cons]
        rw [← ihh.2]
  · intro tzHours localOff pre post bad
    induction pre with
    | nil =>
      intro hpre hbad
      simp only [List.nil_append]
      unfold writeBackPass
      rw [hbad]
      exact ⟨rfl, rfl⟩
    | cons f rest ih =>
      intro hpre hbad
      obtain ⟨w, hf⟩ := hpre f (by simp)
      have ihh := ih (fun g hg => hpre g (by simp [hg])) hbad
      simp only [List.cons_append]
      constructor
      · show (writeBackPass tzHours localOff (f :: (rest ++ bad :: post))).2 = false
        unfold writeBackPass
        rw [hf]
        exact ihh.1
      · show (writeBackPass tzHours localOff (f :: (rest ++ bad :: post))).1.length =
          (f :: rest).length
        unfold writeBackPass
        rw [hf]
        simp only [List.length_cons]
        rw [← ihh.2]

/-- Witness for the amended C9: a file with an unreadable metadata store is
still processed (part 1 applied at a concrete input), and a concrete
two-file batch with a failing first file stops after zero rows. -/
theorem c9_amended_witness :
    (∃ r, reloadRow 0 c9Good = Except.ok r) ∧
    (reloadPass 0 ([] ++ c9Bad :: [c9Good])).2 = false ∧
    (reloadPass 0 ([] ++ c9Bad :: [c9Good])).1.length = ([] : List ReloadIn).length := by
  have h1 := c9_amended_batch_isolation.1 0 c9Good 7 rfl rfl rfl
  have h2 := c9_amended_batch_isolation.2.1 0 [] [c9Good] c9Bad
    (by intro f hf; simp at hf) rfl
  exact ⟨h1, h2.1, h2.2⟩

lemma exifAwareWb_ok {oh : ℤ} (ho1 : -24 < oh) (ho2 : oh < 24) (v : Option ℤ) :
    exifAwareWb (some oh) v =
      Except.ok (v.map (fun ts => (⟨ts, microsPerHour * oh⟩ : Aware))) := by
  cases v with
  | none => rfl
  | some ts =>
    show (if -24 < oh ∧ oh < 24 then
        Except.ok (some (⟨ts, microsPerHour * oh⟩ : Aware))
      else Except.error ()) = Except.ok (some ⟨ts, microsPerHour * oh⟩)
    rw [if_pos ⟨ho1, ho2⟩]

lemma wbExifGroup_ok {r : WbRow} {oh : ℤ} (hmeta : r.metadataOk = true)
    (hoff : r.exifTZOffset = some oh) (ho1 : -24 < oh) (ho2 : oh < 24) :
    wbExifGroup r = Except.ok (some
      (r.exifImageDateTime.map (fun ts => (⟨ts, microsPerHour * oh⟩ : Aware)),
       r.exifPhotoDTO.map (fun ts => (⟨ts, microsPerHour * oh⟩ : Aware)),
       r.exifPhotoDTDigitized.map (fun ts => (⟨ts, microsPerHour * oh⟩ : Aware)),
       r.exifImageDTO.map (fun ts => (⟨ts, microsPerHour * oh⟩ : Aware)),
       r.exifImagePreviewDT.map (fun ts => (⟨ts, microsPerHour * oh⟩ : Aware)))) := by
  unfold wbExifGroup
  rw [hmeta, hoff]
  simp only [exifAwareWb_ok ho1 ho2, except_ok_bind, if_true]

lemma wbQtGroup_all {r : WbRow} {a1 a2 a3 a4 a5 a6 : Aware}
    (h1 : r.qtCreateDate = some a1) (h2 : r.qtModifyDate = some a2)
    (h3 : r.qtTrackCreateDate = some a3) (h4 : r.qtTrackModifyDate = some a4)
    (h5 : r.qtMediaCreateDate = some a5) (h6 : r.qtMediaModifyDate = some a6) :
    wbQtGroup r = Except.ok (some
      (qtWriteValue r.delta a1, qtWriteValue r.delta a2, qtWriteValue r.delta a3,
       qtWriteValue r.delta a4, qtWriteValue r.delta a5, qtWriteValue r.delta a6)) := by
  unfold wbQtGroup
  rw [h1, h2, h3, h4, h5, h6]
  rfl

lemma wbQtGroup_none {r : WbRow}
    (h1 : r.qtCreateDate = none) (h2 : r.qtModifyDate = none)
    (h3 : r.qtTrackCreateDate = none) (h4 : r.qtTrackModifyDate = none)
    (h5 : r.qtMediaCreateDate = none) (h6 : r.qtMediaModifyDate = none) :
    wbQtGroup r = Except.ok none := by
  unfold wbQtGroup
  rw [h1, h2, h3, h4, h5, h6]
  rfl

lemma roundToSecond_spec (x : ℤ) :
    |roundToSecond x - x| ≤ 500000 ∧ roundToSecond x % 1000000 = 0 ∧
      (x % 1000000 = 500000 → roundToSecond x = x + 500000) := by
  unfold roundToSecond
  have h1 : 0 ≤ x % 1000000 := Int.emod_nonneg x (by norm_num)
  have h2 : x % 1000000 < 1000000 := Int.emod_lt_of_pos x (by norm_num)
  by_cases hc : 500000 ≤ x % 1000000
  · rw [if_pos hc]
    refine ⟨by rw [abs_le]; omega, by omega, fun h => by omega⟩
  · rw [if_neg hc]
    refine ⟨by rw [abs_le]; omega, by omega, fun h => by omega⟩

/-- Row for the C5 counterexample: canonical timestamp at the epoch, delta
of exactly half a second, all six QuickTime tags populated at the epoch
(UTC), no exiv-backed metadata. -/
def c5Row : WbRow :=
  { timestamp := some ⟨0, 0⟩, delta := 500000, metadataOk := false,
    xmpCreateDate := none, xmpDateCreated := none,
    iptcDateCreated := none, iptcDigitization := none,
    exifImageDateTime := none, exifPhotoDTO := none, exifPhotoDTDigitized := none,
    exifImageDTO := none, exifImagePreviewDT := none, exifTZOffset := none,
    qtCreateDate := some ⟨0, 0⟩, qtModifyDate := some ⟨0, 0⟩,
    qtTrackCreateDate := some ⟨0, 0⟩, qtTrackModifyDate := some ⟨0, 0⟩,
    qtMediaCreateDate := some ⟨0, 0⟩, qtMediaModifyDate := some ⟨0, 0⟩,
    avchd := none, underAvchdRoot := false }

/-- Values written for `c5Row` with target timezone +1 hour. -/
def c5Written : WbWritten :=
  { xmpCreateDate := none, xmpDateCreated := none,
    iptcDateCreatedDate := none, iptcDateCreatedTime := none,
    iptcDigitizationDate := none, iptcDigitizationTime := none,
    exifImageDateTime := none, exifPhotoDTO := none, exifPhotoDTDigitized := none,
    exifImageDTO := none, exifImagePreviewDT := none, exifTZOffset := none,
    qtCreateDate := some 0, qtModifyDate := some 0,
    qtTrackCreateDate := some 0, qtTrackModifyDate := some 0,
    qtMediaCreateDate := some 0, qtMediaModifyDate := some 0,
    avchd := none, mtimeSet := 500000 }

/-- Counterexample to C5 as stated: the populated QuickTime creation tag of
`c5Row` is written back as the instant 0 (converted to UTC, truncated by
`strftime`), while the claim's value — the old value converted to the target
timezone +1h plus the half-second delta, rounded to the nearest whole second
with the tie up — is the instant 1000000 µs.  The written value differs from
the claimed one. -/
theorem c5_counterexample :
    c5Row.qtCreateDate = some ⟨0, 0⟩
    ∧ writeBackFile 1 0 c5Row = Except.ok c5Written
    ∧ c5Written.qtCreateDate = some 0
    ∧ (exivWriteValue (microsPerHour * 1) c5Row.delta ⟨0, 0⟩).instant = 1000000
    ∧ (0 : ℤ) ≠ 1000000 := by
  refine ⟨rfl, rfl, rfl, by decide, by decide⟩

/-- Amended C5: in a write-back pass with whole-hour target timezone Z and
per-file delta d, every populated tag of the exiv-backed namespaces (XMP,
IPTC, EXIF) and the AVCHD record is written back as the old value converted
to Z plus d, rounded to the nearest whole second with half-second ties
rounded up (IPTC pairs as two tags with the same value; unpopulated tags are
not written) — but QuickTime tags are instead converted to UTC, have d
added, and are truncated to the whole second below by the `strftime`
rendering; moreover, once any QuickTime tag is populated, all six are
written together (a partially populated QuickTime group makes the write
fail), and the file mtime is set to the corrected canonical instant. -/
theorem c5_amended_writeback (tzHours localOff : ℤ) (r : WbRow) (t0 : Aware) (oh : ℤ)
    (hts : r.timestamp = some t0)
    (hmeta : r.metadataOk = true)
    (hoff : r.exifTZOffset = some oh) (ho1 : -24 < oh) (ho2 : oh < 24)
    (hqt : (∃ a1 a2 a3 a4 a5 a6 : Aware,
        r.qtCreateDate = some a1 ∧ r.qtModifyDate = some a2 ∧
        r.qtTrackCreateDate = some a3 ∧ r.qtTrackModifyDate = some a4 ∧
        r.qtMediaCreateDate = some a5 ∧ r.qtMediaModifyDate = some a6)
      ∨ (r.qtCreateDate = none ∧ r.qtModifyDate = none ∧
        r.qtTrackCreateDate = none ∧ r.qtTrackModifyDate = none ∧
        r.qtMediaCreateDate = none ∧ r.qtMediaModifyDate = none)) :
    ∃ w, writeBackFile tzHours localOff r = Except.ok w
      ∧ w.xmpCreateDate = r.xmpCreateDate.map (exivWriteValue (microsPerHour * tzHours) r.delta)
      ∧ w.xmpDateCreated = r.xmpDateCreated.map (exivWriteValue (microsPerHour * tzHours) r.delta)
      ∧ w.iptcDateCreatedDate = r.iptcDateCreated.map
          (fun n => exivWriteValue (microsPerHour * tzHours) r.delta ⟨n, localOff⟩)
      ∧ w.iptcDateCreatedTime = w.iptcDateCreatedDate
      ∧ w.iptcDigitizationDate = r.iptcDigitization.map
          (fun n => exivWriteValue (microsPerHour * tzHours) r.delta ⟨n, localOff⟩)
      ∧ w.iptcDigitizationTime = w.iptcDigitizationDate
      ∧ w.exifImageDateTime = r.exifImageDateTime.map
          (fun n => exivWriteValue (microsPerHour * tzHours) r.delta ⟨n, microsPerHour * oh⟩)
      ∧ w.exifPhotoDTO = r.exifPhotoDTO.map
          (fun n => exivWriteValue (microsPerHour * tzHours) r.delta ⟨n, microsPerHour * oh⟩)
      ∧ w.exifPhotoDTDigitized = r.exifPhotoDTDigitized.map
          (fun n => exivWriteValue (microsPerHour * tzHours) r.delta ⟨n, microsPerHour * oh⟩)
      ∧ w.exifImageDTO = r.exifImageDTO.map
          (fun n => exivWriteValue (microsPerHour * tzHours) r.delta ⟨n, microsPerHour * oh⟩)
      ∧ w.exifImagePreviewDT = r.exifImagePreviewDT.map
          (fun n => exivWriteValue (microsPerHour * tzHours) r.delta ⟨n, microsPerHour * oh⟩)
      ∧ w.exifTZOffset = some tzHours
      ∧ w.qtCreateDate = r.qtCreateDate.map (qtWriteValue r.delta)
      ∧ w.qtModifyDate = r.qtModifyDate.map (qtWriteValue r.delta)
      ∧ w.qtTrackCreateDate = r.qtTrackCreateDate.map (qtWriteValue r.delta)
      ∧ w.qtTrackModifyDate = r.qtTrackModifyDate.map (qtWriteValue r.delta)
      ∧ w.qtMediaCreateDate = r.qtMediaCreateDate.map (qtWriteValue r.delta)
      ∧ w.qtMediaModifyDate = r.qtMediaModifyDate.map (qtWriteValue r.delta)
      ∧ (r.underAvchdRoot = true →
          w.avchd = r.avchd.map (exivWriteValue (microsPerHour * tzHours) r.delta))
      ∧ w.mtimeSet = t0.instant + r.delta
      ∧ (∀ x : ℤ, |roundToSecond x - x| ≤ 500000 ∧ roundToSecond x % 1000000 = 0 ∧
          (x % 1000000 = 500000 → roundToSecond x = x + 500000)) := by
  have hex := wbExifGroup_ok hmeta hoff ho1 ho2
  rcases hqt with ⟨a1, a2, a3, a4, a5, a6, hq1, hq2, hq3, hq4, hq5, hq6⟩ |
    ⟨hq1, hq2, hq3, hq4, hq5, hq6⟩
  · have hq := wbQtGroup_all hq1 hq2 hq3 hq4 hq5 hq6
    refine ⟨_, by unfold writeBackFile; rw [hts, hex, hq], ?_, ?_, ?_, ?_, ?_, ?_,
      ?_, ?_, ?_, ?_, ?_, ?_, ?_, ?_, ?_, ?_, ?_, ?_, ?_, ?_, ?_⟩
    · simp [hmeta]
    · simp [hmeta]
    · simp [hmeta]
    · simp [hmeta]
    · simp [hmeta]
    · simp [hmeta]
    · simp [Option.map_map]
      rfl
    · simp [Option.map_map]
      rfl
    · simp [Option.map_map]
      rfl
    · simp [Option.map_map]
      rfl
    · simp [Option.map_map]
      rfl
    · simp [hmeta, hoff]
    · simp [hq1]
    · simp [hq2]
    · simp [hq3]
    · simp [hq4]
    · simp [hq5]
    · simp [hq6]
    · intro hroot
      cases hav : r.avchd with
      | none => rfl
      | some a => simp [hroot]
    · rfl
    · exact roundToSecond_spec
  · have hq := wbQtGroup_none hq1 hq2 hq3 hq4 hq5 hq6
    refine ⟨_, by unfold writeBackFile; rw [hts, hex, hq], ?_, ?_, ?_, ?_, ?_, ?_,
      ?_, ?_, ?_, ?_, ?_, ?_, ?_, ?_, ?_, ?_, ?_, ?_, ?_, ?_, ?_⟩
    · simp [hmeta]
    · simp [hmeta]
    · simp [hmeta]
    · simp [hmeta]
    · simp [hmeta]
    · simp [hmeta]
    · simp [Option.map_map]
      rfl
    · simp [Option.map_map]
      rfl
    · simp [Option.map_map]
      rfl
    · simp [Option.map_map]
      rfl
    · simp [Option.map_map]
      rfl
    · simp [hmeta, hoff]
    · simp [hq1]
    · simp [hq2]
    · simp [hq3]
    · simp [hq4]
    · simp [hq5]
    · simp [hq6]
    · intro hroot
      cases hav : r.avchd with
      | none => rfl
      | some a => simp [hroot]
    · rfl
    · exact roundToSecond_spec

/-- Fully reconciled row for the amended C5 witness. -/
def c5WRow : WbRow :=
  { timestamp := some ⟨0, 0⟩, delta := 0, metadataOk := true,
    xmpCreateDate := some ⟨0, 0⟩, xmpDateCreated := none,
    iptcDateCreated := none, iptcDigitization := none,
    exifImageDateTime := none, exifPhotoDTO := some 9, exifPhotoDTDigitized := none,
    exifImageDTO := none, exifImagePreviewDT := none, exifTZOffset := some 0,
    qtCreateDate := none, qtModifyDate := none, qtTrackCreateDate := none,
    qtTrackModifyDate := none, qtMediaCreateDate := none, qtMediaModifyDate := none,
    avchd := none, underAvchdRoot := false }

/-- Witness for the amended C5 at a concrete reconciled row. -/
theorem c5_amended_witness :
    ∃ w, writeBackFile 0 0 c5WRow = Except.ok w
      ∧ w.xmpCreateDate = c5WRow.xmpCreateDate.map (exivWriteValue (microsPerHour * 0) c5WRow.delta)
      ∧ w.exifTZOffset = some 0 := by
  obtain ⟨w, h1, h2, rest⟩ := c5_amended_writeback 0 0 c5WRow ⟨0, 0⟩ 0 rfl rfl rfl
    (by norm_num) (by norm_num) (Or.inr ⟨rfl, rfl, rfl, rfl, rfl, rfl⟩)
  exact ⟨w, h1, h2, rest.2.2.2.2.2.2.2.2.2.2.1⟩
